import Mathlib

/-!
Verification of the ingestion/extraction pipeline of the 3d-printer-prices
server (`src/server.js`).  The pipeline (`runLightScrape`, lines 399-605,
plus the admin trigger endpoints around lines 1166-1272) is embedded
shallowly: pure JavaScript string manipulation becomes Lean functions over
`String` / `List Char`, the per-query loop becomes a fold over an explicit
run state, and the external effects (the HTTP fetch, the Supabase reads and
writes, the title-pattern regular expressions) become oracle parameters that
stand for their observable results.  Machine floats (`parseFloat`) are
modelled by exact integers in cents; on the digit strings the code feeds
them the sign and zero-test — all the pipeline inspects — coincide.
-/

set_option maxRecDepth 4000

/-! ## JavaScript string primitives -/

/-- Characters matched by JavaScript `\s` (and removed by `String.trim`):
tab, LF, VT, FF, CR, space, NBSP, BOM.  (The rarer Unicode space characters
are omitted; no string in the pipeline contains them.) -/
def jsWhitespaceChar (c : Char) : Bool :=
  c = ' ' || c = '\t' || c = '\n' || c = '\r' || c.val = 11 || c.val = 12 ||
  c.val = 160 || c.val = 65279

/-- JavaScript `String.prototype.trim`. -/
def jsTrim (s : String) : String :=
  String.mk (((s.data.dropWhile jsWhitespaceChar).reverse.dropWhile jsWhitespaceChar).reverse)

/-- Does `pat` occur as a contiguous substring of the character list? -/
def strIncludesAux (pat : List Char) : List Char → Bool
  | [] => pat.isEmpty
  | c :: rest => pat.isPrefixOf (c :: rest) || strIncludesAux pat rest

/-- JavaScript `s.includes(pat)`. -/
def strIncludes (s pat : String) : Bool :=
  strIncludesAux pat.data s.data

/-- Strip a literal (case-sensitively): `some rest` when `s = pat ++ rest`. -/
def litStrip (pat s : List Char) : Option (List Char) :=
  if pat.isPrefixOf s then some (s.drop pat.length) else none

/-- Strip a literal case-insensitively (for regexes carrying the `i` flag). -/
def ciStrip : List Char → List Char → Option (List Char)
  | [], s => some s
  | _ :: _, [] => none
  | p :: ps, c :: cs => if p.toLower = c.toLower then ciStrip ps cs else none

/-! ## Field-extraction helpers (`server.js` lines 389-397, 490-558) -/

/-- The regex `/^\d[\d.]* out of \d/i` of `isGarbageTitle` (line 493):
a digit, a run of digits and dots, the literal `" out of "`
(case-insensitively), then a digit.  The run `[\d.]*` is greedy, and since
a space is in neither the class nor its complement's interesting part, the
greedy run followed by the literal is the unique parse — no backtracking
case is lost. -/
def starsPattern (t : String) : Bool :=
  match t.data with
  | [] => false
  | c :: rest =>
    c.isDigit &&
      (match ciStrip " out of ".data (rest.dropWhile (fun d => d.isDigit || d = '.')) with
       | some (d :: _) => d.isDigit
       | _ => false)

/-- A character of the class `[\d\s.$,]` (line 498). -/
def moneyNoiseChar (c : Char) : Bool :=
  c.isDigit || jsWhitespaceChar c || c = '.' || c = '$' || c = ','

/-- The regex `/^[\d\s.$,]+$/` (line 498): nonempty, all characters from
the class. -/
def numericNoiseOnly (t : String) : Bool :=
  !t.data.isEmpty && t.data.all moneyNoiseChar

/-- `isGarbageTitle` (`server.js` lines 491-500).  The JavaScript guard
`!t` (null / empty string) is subsumed by the length test, since callers
only pass strings. -/
def isGarbageTitle (t : String) : Bool :=
  if t.length < 10 then true
  else if starsPattern t then true
  else if strIncludes t "Check each product" then true
  else if strIncludes t "buying options" then true
  else if strIncludes t "Sponsored" then true
  else if strIncludes t "Best Seller" then true
  else if numericNoiseOnly t then true
  else false

/-- The fixed brand list of `detectBrandFromTitle` (lines 390-394). -/
def scrapeBrands : List String :=
  ["Bambu Lab", "Creality", "ELEGOO", "Anycubic", "FLASHFORGE",
   "Phrozen", "Prusa", "Longer", "SUNLU", "HATCHBOX", "eSUN",
   "Polymaker", "Overture", "JAYO", "Sovol", "QIDI", "Voxelab"]

/-- ASCII uppercasing, as JavaScript `toUpperCase` on the strings involved. -/
def jsToUpper (s : String) : String :=
  String.mk (s.data.map Char.toUpper)

/-- `detectBrandFromTitle` (lines 389-397): first brand whose uppercased
form occurs in the uppercased title, else none. -/
def detectBrandFromTitle (title : String) : Option String :=
  let upper := jsToUpper title
  scrapeBrands.find? (fun b => strIncludes upper (jsToUpper b))

/-- Value of a list of decimal digit characters. -/
def digitsVal (l : List Char) : Nat :=
  l.foldl (fun a c => a * 10 + (c.toNat - 48)) 0

/-- `parseFloat(priceMatch[1].replace(/,/g, ''))` (line 536), represented
as an integer scaled by `10^d`, `d` the number of fractional digits.  Every
capture of the price regex `([0-9,]+\.\d{2})` has `d = 2`, so on those
strings this is the price in cents: the float equals `parseCents s / 100`
exactly, is never negative, and is zero precisely when `parseCents s = 0` —
which is everything the `price <= 0` test at line 537 can observe. -/
def parseCents (s : String) : Nat :=
  let noCommas := s.data.filter (fun c => c ≠ ',')
  let ip := noCommas.takeWhile Char.isDigit
  let rest := noCommas.drop ip.length
  let fp := (match rest with
    | '.' :: t => t.takeWhile Char.isDigit
    | _ => ([] : List Char))
  digitsVal ip * 10 ^ fp.length + digitsVal fp


/-! ## `indexOf`, `substring`, ASIN scan, block segmentation
(`server.js` lines 466-488) -/

/-- Index (from `i`) of the first suffix beginning with `pat`, else `-1`. -/
def jsIndexOfAux (pat : List Char) : List Char → Nat → Int
  | [], i => if pat.isEmpty then (i : Int) else -1
  | s@(_ :: rest), i => if pat.isPrefixOf s then (i : Int) else jsIndexOfAux pat rest (i + 1)

/-- JavaScript `s.indexOf(pat)` (for the nonempty patterns the code uses). -/
def jsIndexOf (s pat : String) : Int :=
  jsIndexOfAux pat.data s.data 0

/-- JavaScript `s.indexOf(pat, start)` with `start ≥ 0`. -/
def jsIndexOfFrom (s pat : String) (start : Nat) : Int :=
  jsIndexOfAux pat.data (s.data.drop start) start

/-- JavaScript `s.substring(a, b)`: clamp both arguments into `[0, length]`,
swap if out of order, return the in-between characters. -/
def jsSubstring (s : String) (a b : Int) : String :=
  let n : Int := (s.length : Int)
  let a' := (min (max a 0) n).toNat
  let b' := (min (max b 0) n).toNat
  String.mk ((s.data.drop (min a' b')).take (max a' b' - min a' b'))

/-- A character of the class `[A-Z0-9]` of the ASIN regex (line 467). -/
def asinChar (c : Char) : Bool :=
  c.isDigit || ('A' ≤ c && c ≤ 'Z')

/-- All captures of `/data-asin="([A-Z0-9]{10})"/g` over the document, in
match order (line 467-469).  A global `exec` loop resumes right after each
match (22 characters), and advances one character past a failed attempt.
The fuel argument only forces structural recursion; any fuel at least the
list length (each step consumes at least one character) gives the same
result. -/
def scanAsinsAux : Nat → List Char → List String
  | 0, _ => []
  | _ + 1, [] => []
  | fuel + 1, s@(_ :: rest) =>
    if "data-asin=\"".data.isPrefixOf s then
      let r1 := s.drop 11
      let code := r1.take 10
      if code.length = 10 && code.all asinChar &&
          (match r1.drop 10 with
           | '"' :: _ => true
           | _ => false) then
        String.mk code :: scanAsinsAux fuel (s.drop 22)
      else scanAsinsAux fuel rest
    else scanAsinsAux fuel rest

/-- The `allAsins` set of line 466: captured ASINs, first occurrence kept,
in JavaScript `Set` (insertion) order. -/
def scanAsins (html : String) : List String :=
  (scanAsinsAux html.data.length html.data).foldl
    (fun acc a => if acc.contains a then acc else acc ++ [a]) []

/-- The block span attributed to one ASIN (lines 483-488): from the first
occurrence of its marker to the next occurrence of `data-asin="` after
`blockStart + 20`, else to `blockStart + 5000`; `none` models `continue`
when the marker is absent. -/
def blockFor (html asin : String) : Option String :=
  let blockStart := jsIndexOf html ("data-asin=\"" ++ asin ++ "\"")
  if blockStart = -1 then none
  else
    let nextAsin := jsIndexOfFrom html "data-asin=\"" (blockStart + 20).toNat
    some (jsSubstring html blockStart (if nextAsin > 0 then nextAsin else blockStart + 5000))

/-! ## The price pattern (`server.js` line 534)

`block.match(/<span class="a-price"[^>]*>[\s\S]*?<span[^>]*>\$([0-9,]+\.\d{2})<\/span>/i)`.

Each sub-pattern is deterministic once its starting position is fixed:
`[^>]*` followed by `>` can only stop at the first `>`, the lazy
`[\s\S]*?` tries positions nearest-first, and `[0-9,]+` followed by `\.`
can only stop at the first non-class character.  The functions below
implement exactly that search order and return the first capture, i.e. the
leftmost match. -/

/-- `[^>]*>`: drop to the first `>` and consume it. -/
def scanToGt : List Char → Option (List Char)
  | [] => none
  | '>' :: r => some r
  | _ :: r => scanToGt r

/-- `([0-9,]+\.\d{2})<\/span>`: the capture, or `none`. -/
def priceCapture (s : List Char) : Option (List Char) :=
  let run := s.takeWhile (fun c => c.isDigit || c = ',')
  if run.isEmpty then none
  else
    match s.drop run.length with
    | '.' :: d1 :: d2 :: r =>
      if d1.isDigit && d2.isDigit && (ciStrip "</span>".data r).isSome then
        some (run ++ ['.', d1, d2])
      else none
    | _ => none

/-- `<span[^>]*>\$` followed by the capture, at one fixed position. -/
def priceInner (s : List Char) : Option (List Char) :=
  match ciStrip "<span".data s with
  | none => none
  | some r1 =>
    match scanToGt r1 with
    | none => none
    | some r2 =>
      match r2 with
      | '$' :: r3 => priceCapture r3
      | _ => none

/-- The lazy `[\s\S]*?` region: nearest successful inner match. -/
def priceLazy : List Char → Option (List Char)
  | [] => none
  | s@(_ :: r) =>
    match priceInner s with
    | some c => some c
    | none => priceLazy r

/-- One whole-pattern attempt anchored at a fixed position. -/
def priceAt (s : List Char) : Option (List Char) :=
  match ciStrip "<span class=\"a-price\"".data s with
  | none => none
  | some r1 =>
    match scanToGt r1 with
    | none => none
    | some r2 => priceLazy r2

/-- Leftmost whole-pattern match over the block. -/
def findPriceAux : List Char → Option (List Char)
  | [] => none
  | s@(_ :: r) =>
    match priceAt s with
    | some c => some c
    | none => findPriceAux r

/-- `priceMatch?.[1]` of lines 534-535: the capture of the price regex. -/
def findPrice (block : String) : Option String :=
  (findPriceAux block.data).map String.mk

/-- The shape of every capture group the price pattern can produce: a
nonempty run of digits and commas, then a dot, then exactly two digits. -/
def priceShape (s : String) : Bool :=
  let run := s.data.takeWhile (fun c => c.isDigit || c = ',')
  !run.isEmpty &&
    (match s.data.drop run.length with
     | '.' :: d1 :: d2 :: [] => d1.isDigit && d2.isDigit
     | _ => false)


/-! ## Data model and per-item extraction (`server.js` lines 502-558) -/

/-- One entry of the static `SCRAPE_SEARCHES` catalog (lines 310-324). -/
structure SearchQuery where
  query : String
  category : String
  productType : String
  label : String
deriving DecidableEq

/-- The fixed search catalog `SCRAPE_SEARCHES` (lines 310-324). -/
def SCRAPE_SEARCHES : List SearchQuery :=
  [⟨"3D+printer+FDM", "3d_printer", "fdm", "3D Printer FDM"⟩,
   ⟨"Bambu+Lab+3D+printer", "3d_printer", "fdm", "Bambu Lab"⟩,
   ⟨"Creality+3D+printer", "3d_printer", "fdm", "Creality"⟩,
   ⟨"resin+3D+printer", "3d_printer", "resin_sla", "Resin Printer"⟩,
   ⟨"3D+printer+filament+PLA", "filament", "pla", "PLA Filament"⟩,
   ⟨"3D+printer+filament+PETG", "filament", "petg", "PETG Filament"⟩,
   ⟨"3D+printer+filament+ABS", "filament", "abs", "ABS Filament"⟩,
   ⟨"3D+printer+filament+TPU+flexible", "filament", "tpu", "TPU Filament"⟩,
   ⟨"UV+resin+for+3D+printer", "resin", "uv_resin", "UV Resin"⟩,
   ⟨"3D+printer+wash+cure+resin", "resin", "uv_resin", "Wash & Cure Resin"⟩,
   ⟨"3D+printer+accessories+nozzle+bed", "accessories", "tools", "Accessories"⟩,
   ⟨"3D+printer+tools+kit+scraper", "accessories", "tools", "Tools Kit"⟩,
   ⟨"3D+pen", "3d_pen", "3d_pen", "3D Pen"⟩]

/-- The observable results of the three title regexes and the rating and
review regexes on one block (lines 506, 516, 524, 540, 541).  The regex
engine itself is external; a `BlockMatches` value records, in match order,
the candidate strings each pattern captured on the block (for pattern 1,
the inner text re-extracted by `/>([^<]+)</`), plus the optional rating
and review-count captures. -/
structure BlockMatches where
  p1 : List String
  p2 : List String
  p3 : List String
  rating : Option String
  review : Option String
deriving DecidableEq

/-- One candidate record as pushed at lines 543-558.  The price is held in
cents (see `parseCents`); the affiliate URL and `updated_at` timestamp are
functions of the ASIN and the clock and are omitted; rating and review
count are kept as their raw captures. -/
structure Product where
  amazonAsin : String
  productName : String
  priceCents : Nat
  brand : Option String
  ratingCapture : Option String
  reviewCapture : Option String
  category : String
  productType : String
  condition : String
  locale : String
  isAvailable : Bool
deriving DecidableEq

/-- One title pattern's loop (lines 507-528): trim each candidate in match
order, accept the first that is not garbage. -/
def pickFirst : List String → Option String
  | [] => none
  | c :: rest =>
    let t := jsTrim c
    if !isGarbageTitle t then some t else pickFirst rest

/-- The ordered fallback over the three title patterns (lines 502-528). -/
def selectTitle (bm : BlockMatches) : Option String :=
  match pickFirst bm.p1 with
  | some t => some t
  | none =>
    match pickFirst bm.p2 with
    | some t => some t
    | none => pickFirst bm.p3

/-- Lines 502-558 for one ASIN's block: title selection with the final
recheck of line 531, then the price pattern with the positivity test of
line 537 (`price <= 0`, never negative here, hence the `Nat` order), then
the optional rating and review captures and the record fields. -/
def extractItem (search : SearchQuery) (asin block : String) (bm : BlockMatches) :
    Option Product :=
  match selectTitle bm with
  | none => none
  | some title =>
    if isGarbageTitle title then none
    else
      match findPrice block with
      | none => none
      | some cap =>
        let price := parseCents cap
        if price ≤ 0 then none
        else
          some { amazonAsin := asin, productName := title, priceCents := price,
                 brand := detectBrandFromTitle title,
                 ratingCapture := bm.rating, reviewCapture := bm.review,
                 category := search.category, productType := search.productType,
                 condition := "new", locale := "us", isAvailable := true }

/-- Add to a JavaScript `Set` modelled as a duplicate-free list. -/
def setAdd (s : List String) (a : String) : List String :=
  if s.contains a then s else s ++ [a]

/-- The per-query extraction loop (lines 479-559): stop once
`products.length >= maxPerQuery`, skip an ASIN whose marker vanished
(`blockStart === -1`) or whose block yields no record. -/
def extractLoop (bmOf : String → BlockMatches) (search : SearchQuery) (html : String)
    (maxPerQuery : Nat) : List String → List Product → List Product
  | [], products => products
  | asin :: rest, products =>
    if products.length ≥ maxPerQuery then products
    else
      match blockFor html asin with
      | none => extractLoop bmOf search html maxPerQuery rest products
      | some block =>
        match extractItem search asin block (bmOf block) with
        | none => extractLoop bmOf search html maxPerQuery rest products
        | some p => extractLoop bmOf search html maxPerQuery rest (products ++ [p])

/-! ## The orchestrator (`server.js` lines 399-605) -/

/-- The run's mutable state: the four counters of line 400, the known-ASIN
set of line 418, and the contents of the `products` table (append-only
under the pipeline's plain `insert` of line 565). -/
structure RunState where
  totalFound : Nat
  totalSaved : Nat
  totalSkipped : Nat
  errorsCount : Nat
  existingAsins : List String
  storage : List Product
deriving DecidableEq

/-- Result of `fetchAmazonPage` plus `res.text()` for one query: either an
exception (network failure, caught at line 584) or a status flag `res.ok`
with the body text. -/
inductive FetchOutcome where
  | threw
  | got (ok : Bool) (body : String)
deriving DecidableEq

/-- The bot-detection check of line 457: known challenge markers in the
body, or body length under the 5000-character usability threshold. -/
def blockedBody (html : String) : Bool :=
  strIncludes html "captcha" || strIncludes html "automated access" || html.length < 5000

/-- The page classification the query loop implements (lines 448-461):
`res.ok` is tested first, then the challenge/length check, else the page
is parsed. -/
inductive PageClass where
  | httpError
  | blocked
  | usable
deriving DecidableEq

/-- Classification of a fetched response (lines 448-461). -/
def classifyPage (ok : Bool) (body : String) : PageClass :=
  if !ok then .httpError
  else if blockedBody body then .blocked
  else .usable

/-- The extracted-candidates list of one query (lines 466-559): segment the
page into per-ASIN blocks, keep identifiers not in the known set, and run
field extraction over them up to the per-query cap. -/
def queryProducts (bmOf : String → BlockMatches) (search : SearchQuery) (html : String)
    (maxPerQuery : Nat) (known : List String) : List Product :=
  extractLoop bmOf search html maxPerQuery
    ((scanAsins html).filter (fun a => !known.contains a)) []

/-- One iteration of the query loop (lines 437-588).  `bmOf` gives the
title/rating/review regex results per block, `fetch` the page per query,
`insertOk` whether the batch insert of line 565 succeeded. -/
def processQuery (bmOf : String → BlockMatches) (fetch : SearchQuery → FetchOutcome)
    (insertOk : SearchQuery → List Product → Bool) (maxPerQuery : Nat)
    (st : RunState) (search : SearchQuery) : RunState :=
  match fetch search with
  | .threw => { st with errorsCount := st.errorsCount + 1 }
  | .got ok html =>
    if !ok then { st with errorsCount := st.errorsCount + 1 }
    else if blockedBody html then
      { st with errorsCount := st.errorsCount + 1 }
    else
      let allAsins := scanAsins html
      let newAsins := allAsins.filter (fun a => !st.existingAsins.contains a)
      let skippedCount := allAsins.length - newAsins.length
      let products := queryProducts bmOf search html maxPerQuery st.existingAsins
      let st1 := { st with totalSkipped := st.totalSkipped + skippedCount,
                           totalFound := st.totalFound + products.length }
      if products.length > 0 then
        if insertOk search products then
          { st1 with totalSaved := st1.totalSaved + products.length,
                     existingAsins := products.foldl (fun s p => setAdd s p.amazonAsin)
                       st1.existingAsins,
                     storage := st1.storage ++ products }
        else { st1 with errorsCount := st1.errorsCount + products.length }
      else st1

/-- The final status expression of line 590. -/
def computeStatus (errorsCount numSearches : Nat) : String :=
  if errorsCount = numSearches then "failed"
  else if errorsCount > 0 then "partial"
  else "success"

/-- The persisted `scrape_logs` row (lines 595-602) together with the
closing state; `status`, `totalFound` (`products_found`), `totalSaved`
(`products_saved`) and `errorsCount` are the persisted columns. -/
structure RunResult where
  status : String
  totalFound : Nat
  totalSaved : Nat
  errorsCount : Nat
  finalState : RunState
deriving DecidableEq

/-- Steps 2 and 3 of the run (lines 437-605) for an arbitrary query list
and initial known set: fold the query loop, then compute the status from
the error counter and the number of selected queries. -/
def runScrapeOn (bmOf : String → BlockMatches) (fetch : SearchQuery → FetchOutcome)
    (insertOk : SearchQuery → List Product → Bool) (maxPerQuery : Nat)
    (existing0 : List String) (storage0 : List Product)
    (searches : List SearchQuery) : RunResult :=
  let final := searches.foldl (processQuery bmOf fetch insertOk maxPerQuery)
    { totalFound := 0, totalSaved := 0, totalSkipped := 0, errorsCount := 0,
      existingAsins := existing0, storage := storage0 }
  { status := computeStatus final.errorsCount searches.length,
    totalFound := final.totalFound, totalSaved := final.totalSaved,
    errorsCount := final.errorsCount, finalState := final }

/-- Result of the paginated ASIN scan of lines 419-434: the row batches the
database returned (non-null `amazon_asin` values), and whether an error
ended the loop after those batches.  Either way the run proceeds — the
`catch` at line 432 only logs. -/
inductive ScanOutcome where
  | ok (pages : List (List String))
  | failed (pages : List (List String))
deriving DecidableEq

/-- The known set built by the scan loop: every identifier of every batch
processed before the scan ended or failed. -/
def loadExisting : ScanOutcome → List String
  | .ok pages => pages.foldl (fun acc page => page.foldl setAdd acc) []
  | .failed pages => pages.foldl (fun acc page => page.foldl setAdd acc) []

/-- The query subset selection of lines 405-407. -/
def selectSearches (filterCategories : Option (List String))
    (searches : List SearchQuery) : List SearchQuery :=
  match filterCategories with
  | some cats =>
    if cats.length > 0 then searches.filter (fun s => cats.contains s.category)
    else searches
  | none => searches

/-- `runLightScrape` (lines 399-605): select the queries, build the known
set from the scan outcome, run the loop, persist the summary. -/
def runLightScrape (bmOf : String → BlockMatches) (fetch : SearchQuery → FetchOutcome)
    (insertOk : SearchQuery → List Product → Bool) (scan : ScanOutcome)
    (storage0 : List Product) (filterCategories : Option (List String))
    (maxPerQuery : Nat) : RunResult :=
  runScrapeOn bmOf fetch insertOk maxPerQuery (loadExisting scan) storage0
    (selectSearches filterCategories SCRAPE_SEARCHES)

/-! ## Single-flight trigger endpoints (`server.js` lines 295, 1166-1272) -/

/-- The two process-wide running flags (lines 295 and 1192). -/
structure GuardState where
  scraperRunning : Bool
  priceUpdateRunning : Bool
deriving DecidableEq

/-- How an accepted scrape run ends: `runLightScrape` resolves, or it
rejects and the `catch` of line 1183 logs the error. -/
inductive JobOutcome where
  | completed
  | threw
deriving DecidableEq

/-- One handler invocation, observed: the status of the immediate HTTP
response, whether a run was started, the flag state while the run is in
flight, and the flag state after the handler finishes. -/
structure TriggerTrace where
  httpStatus : Nat
  startedRun : Bool
  stateAfterResponse : GuardState
  finalState : GuardState
deriving DecidableEq

/-- `POST /api/admin/scrape` (lines 1167-1189): admin check (401), busy
check (409), else set the flag, acknowledge with 200, run, and clear the
flag in the `finally` of line 1186 on both outcomes. -/
def scrapeTrigger (adminOk : Bool) (st : GuardState) (outcome : JobOutcome) :
    TriggerTrace :=
  if !adminOk then ⟨401, false, st, st⟩
  else if st.scraperRunning then ⟨409, false, st, st⟩
  else
    let running : GuardState := { st with scraperRunning := true }
    let afterRun : GuardState :=
      match outcome with
      | .completed => { running with scraperRunning := false }
      | .threw => { running with scraperRunning := false }
    ⟨200, true, running, afterRun⟩

/-- How an accepted price-refresh run ends (lines 1200-1271): the early
return of line 1208 when no products need refreshing, normal completion,
or an exception caught at line 1267; the `finally` of line 1269 runs in
all three cases. -/
inductive PriceOutcome where
  | noProducts
  | completed
  | threw
deriving DecidableEq

/-- `POST /api/admin/update-prices` (lines 1193-1272). -/
def priceTrigger (adminOk : Bool) (st : GuardState) (outcome : PriceOutcome) :
    TriggerTrace :=
  if !adminOk then ⟨401, false, st, st⟩
  else if st.priceUpdateRunning then ⟨409, false, st, st⟩
  else
    let running : GuardState := { st with priceUpdateRunning := true }
    let afterRun : GuardState :=
      match outcome with
      | .noProducts => { running with priceUpdateRunning := false }
      | .completed => { running with priceUpdateRunning := false }
      | .threw => { running with priceUpdateRunning := false }
    ⟨200, true, running, afterRun⟩

/-! ## Per-query error accounting -/

/-- The increments of the error counter along the query loop, one entry per
query: how much `errorsCount` grew while that query was processed.  A
blocked page, an HTTP failure or an exception contributes `1` (lines 450,
459, 586); a failed batch insert contributes the batch size (line 568); an
uneventful query contributes `0`. -/
def errorDeltas (bmOf : String → BlockMatches) (fetch : SearchQuery → FetchOutcome)
    (insertOk : SearchQuery → List Product → Bool) (maxPerQuery : Nat) :
    RunState → List SearchQuery → List Nat
  | _, [] => []
  | st, q :: qs =>
    ((processQuery bmOf fetch insertOk maxPerQuery st q).errorsCount - st.errorsCount) ::
      errorDeltas bmOf fetch insertOk maxPerQuery
        (processQuery bmOf fetch insertOk maxPerQuery st q) qs

/-- The canonical state a run starts from (line 400), with a given known
set and table contents. -/
def initState (existing0 : List String) (storage0 : List Product) : RunState :=
  { totalFound := 0, totalSaved := 0, totalSkipped := 0, errorsCount := 0,
    existingAsins := existing0, storage := storage0 }

/-! ## Concrete scenario inputs

All usable-page scenarios share a page layout: 5000 padding characters
(`'x'`), so the page passes the length threshold of line 457, followed by
one or two small item blocks.  The padding leads so that every scan's walk
across it is handled by the dedicated lemmas below and all real extraction
work happens on short literals. -/

/-- `n` characters of `'x'` padding. -/
def padL (n : Nat) : List Char := List.replicate n 'x'

/-- The same padding as a string. -/
def padStr (n : Nat) : String := String.mk (padL n)

/-- An item block for ASIN `AAAAAAAAA1` priced `$19.99`. -/
def blockA : String :=
  "data-asin=\"AAAAAAAAA1\"<span class=\"a-price\"><span>$19.99</span></span>"

/-- An item block for ASIN `BBBBBBBBB2` priced `$29.99`. -/
def blockB : String :=
  "data-asin=\"BBBBBBBBB2\"<span class=\"a-price\"><span>$29.99</span></span>"

/-- A usable page listing only `AAAAAAAAA1`. -/
def pageA : String := padStr 5000 ++ blockA

/-- A usable page listing `AAAAAAAAA1` and `BBBBBBBBB2`. -/
def pageAB : String := padStr 5000 ++ (blockA ++ blockB)

/-- A page whose only marker is followed by 6000 further characters — more
than the 5000-character cap of line 488. -/
def html6 : String := "data-asin=\"AAAAAAAAA1\"" ++ padStr 6000

/-- The block the code cuts for `AAAAAAAAA1` on `html6`. -/
def blk6 : String := jsSubstring html6 0 5000

/-- A title-pattern oracle whose first pattern always captures one clean
title. -/
def bmOracle : String → BlockMatches :=
  fun _ => ⟨["Generic Usable Product Title 123"], [], [], none, none⟩

/-- A title-pattern oracle whose first pattern captures boilerplate and
whose second captures a 40-character product title. -/
def bmBoiler : BlockMatches :=
  ⟨["Check each product page for other options"],
   ["ACME X1 Carbon 3D Printer Kits 256x256mm"], [], none, none⟩

/-- The record extracted from `blockA` under `bmOracle` for a query. -/
def prodA (search : SearchQuery) : Product :=
  { amazonAsin := "AAAAAAAAA1", productName := "Generic Usable Product Title 123",
    priceCents := 1999, brand := none, ratingCapture := none, reviewCapture := none,
    category := search.category, productType := search.productType,
    condition := "new", locale := "us", isAvailable := true }

/-- The record extracted from `blockB` under `bmOracle` for a query. -/
def prodB (search : SearchQuery) : Product :=
  { amazonAsin := "BBBBBBBBB2", productName := "Generic Usable Product Title 123",
    priceCents := 2999, brand := none, ratingCapture := none, reviewCapture := none,
    category := search.category, productType := search.productType,
    condition := "new", locale := "us", isAvailable := true }

/-- A record already stored for `AAAAAAAAA1`, at an older price. -/
def prodK : Product :=
  { amazonAsin := "AAAAAAAAA1", productName := "Old Stored Product Title ABC",
    priceCents := 1000, brand := none, ratingCapture := none, reviewCapture := none,
    category := "3d_pen", productType := "3d_pen", condition := "new",
    locale := "us", isAvailable := true }

/-- Fetch oracle: every query sees `pageA`. -/
def fetchA : SearchQuery → FetchOutcome := fun _ => .got true pageA

/-- Fetch oracle: every query sees `pageAB`. -/
def fetchAB : SearchQuery → FetchOutcome := fun _ => .got true pageAB

/-- Insert oracle: every batch insert fails. -/
def insertNever : SearchQuery → List Product → Bool := fun _ _ => false

/-- Insert oracle: every batch insert succeeds. -/
def insertAlways : SearchQuery → List Product → Bool := fun _ _ => true

/-! # Lemmas about the string scanners -/

theorem strIncludesAux_eq_false (pat l : List Char) (c : Char) (hc : c ∈ pat)
    (hl : c ∉ l) : strIncludesAux pat l = false := by
  induction l with
  | nil =>
    cases pat with
    | nil => simp at hc
    | cons p ps => simp [strIncludesAux]
  | cons d rest ih =>
    have h1 : pat.isPrefixOf (d :: rest) = false := by
      cases hh : pat.isPrefixOf (d :: rest) with
      | false => rfl
      | true => exact absurd ((List.isPrefixOf_iff_prefix.mp hh).subset hc) hl
    have h2 := ih (fun hm => hl (List.mem_cons_of_mem d hm))
    simp [strIncludesAux, h1, h2]

/-- `includes` is false whenever some character of the pattern is missing
from the string. -/
theorem strIncludes_eq_false (s pat : String) (c : Char) (hc : c ∈ pat.data)
    (hs : c ∉ s.data) : strIncludes s pat = false :=
  strIncludesAux_eq_false pat.data s.data c hc hs

theorem dataAsin_not_prefix_x (l : List Char) :
    ("data-asin=\"".data).isPrefixOf ('x' :: l) = false := by
  rw [show "data-asin=\"".data = 'd' :: "ata-asin=\"".data from rfl]
  simp [List.isPrefixOf]

/-- Search indices are `-1` or at least the running index. -/
theorem jsIndexOfAux_cases (pat : List Char) :
    ∀ (l : List Char) (i : Nat), jsIndexOfAux pat l i = -1 ∨ (i : Int) ≤ jsIndexOfAux pat l i := by
  intro l
  induction l with
  | nil =>
    intro i
    by_cases hp : pat.isEmpty
    · right; simp [jsIndexOfAux, hp]
    · left; simp [jsIndexOfAux, hp]
  | cons d rest ih =>
    intro i
    cases hp : pat.isPrefixOf (d :: rest) with
    | true => right; simp [jsIndexOfAux, hp]
    | false =>
      rcases ih (i + 1) with h | h
      · left; simpa [jsIndexOfAux, hp] using h
      · right
        have : (i : Int) ≤ ((i + 1 : Nat) : Int) := by push_cast; omega
        simpa [jsIndexOfAux, hp] using le_trans this h

/-- A search started at `i` yields the search-from-`0` result shifted by
`i`, or `-1` when there is no occurrence. -/
theorem jsIndexOfAux_shift (pat : List Char) :
    ∀ (l : List Char) (i : Nat), jsIndexOfAux pat l i =
      if jsIndexOfAux pat l 0 = -1 then -1 else jsIndexOfAux pat l 0 + i := by
  intro l
  induction l with
  | nil =>
    intro i
    by_cases hp : pat.isEmpty
    · simp [jsIndexOfAux, hp]
    · simp [jsIndexOfAux, hp]
  | cons d rest ih =>
    intro i
    cases hp : pat.isPrefixOf (d :: rest) with
    | true => simp [jsIndexOfAux, hp]
    | false =>
      have h0 : jsIndexOfAux pat (d :: rest) 0 = jsIndexOfAux pat rest 1 := by
        simp [jsIndexOfAux, hp]
      have hi : jsIndexOfAux pat (d :: rest) i = jsIndexOfAux pat rest (i + 1) := by
        simp [jsIndexOfAux, hp]
      rw [h0, hi, ih (i + 1), ih 1]
      rcases jsIndexOfAux_cases pat rest 0 with h | h
      · simp [h]
      · have hne : jsIndexOfAux pat rest 0 ≠ -1 := by omega
        have hne2 : jsIndexOfAux pat rest 0 + 1 ≠ -1 := by omega
        simp only [if_neg hne, if_neg hne2]
        push_cast
        omega

/-- Searching across the `'x'` padding: a pattern that does not begin with
`'x'` can only occur in the remainder. -/
theorem jsIndexOfAux_pad (pat : List Char) (d : Char) (t : List Char)
    (hpat : pat = d :: t) (hd : d ≠ 'x') :
    ∀ (n : Nat) (rest : List Char) (i : Nat),
      jsIndexOfAux pat (padL n ++ rest) i = jsIndexOfAux pat rest (i + n) := by
  intro n
  induction n with
  | zero => intro rest i; simp [padL]
  | succ m ih =>
    intro rest i
    have hx : padL (m + 1) ++ rest = 'x' :: (padL m ++ rest) := by
      simp [padL, List.replicate_succ]
    have hpre : pat.isPrefixOf ('x' :: (padL m ++ rest)) = false := by
      subst hpat
      simp [List.isPrefixOf]
      intro h
      exact absurd h hd
    rw [hx]
    have hstep : jsIndexOfAux pat ('x' :: (padL m ++ rest)) i
        = jsIndexOfAux pat (padL m ++ rest) (i + 1) := by
      simp [jsIndexOfAux, hpre]
    rw [hstep, ih rest (i + 1)]
    have : i + 1 + m = i + (m + 1) := by omega
    rw [this]

/-- The ASIN scan across the `'x'` padding finds nothing and consumes one
fuel per character. -/
theorem scanAsinsAux_pad : ∀ (n fuel : Nat) (rest : List Char),
    scanAsinsAux (n + fuel) (padL n ++ rest) = scanAsinsAux fuel rest := by
  intro n
  induction n with
  | zero => intro fuel rest; simp [padL]
  | succ m ih =>
    intro fuel rest
    have hx : padL (m + 1) ++ rest = 'x' :: (padL m ++ rest) := by
      simp [padL, List.replicate_succ]
    have harith : m + 1 + fuel = (m + fuel) + 1 := by omega
    rw [hx, harith]
    have hstep : scanAsinsAux ((m + fuel) + 1) ('x' :: (padL m ++ rest))
        = scanAsinsAux (m + fuel) (padL m ++ rest) := by
      simp [scanAsinsAux, dataAsin_not_prefix_x]
    rw [hstep, ih fuel rest]

theorem drop_pad (n k : Nat) (rest : List Char) :
    (padL n ++ rest).drop (n + k) = rest.drop k := by
  have h : n + k = (padL n).length + k := by simp [padL]
  rw [h, List.drop_append_eq_append_drop]
  simp

theorem strData_append (s t : String) : (s ++ t).data = s.data ++ t.data := rfl

theorem padStr_data (n : Nat) : (padStr n).data = padL n := rfl

theorem padStr_append_data (n : Nat) (t : String) :
    (padStr n ++ t).data = padL n ++ t.data := rfl

theorem padStr_append_length (n : Nat) (t : String) :
    (padStr n ++ t).length = n + t.length := by
  show (padL n ++ t.data).length = n + t.data.length
  simp [padL]

/-- ASIN scanning ignores a leading padding. -/
theorem scanAsins_pad (n : Nat) (tail : String) :
    scanAsins (padStr n ++ tail) = scanAsins tail := by
  unfold scanAsins
  rw [padStr_append_data]
  have hl : (padL n ++ tail.data).length = n + tail.data.length := by simp [padL]
  rw [hl, scanAsinsAux_pad]

/-- Substring extraction commutes with dropping a leading padding, for
nonnegative endpoints shifted by the padding length. -/
theorem jsSubstring_pad (n : Nat) (t : String) (a b : Int) (ha : 0 ≤ a) (hb : 0 ≤ b) :
    jsSubstring (padStr n ++ t) (a + n) (b + n) = jsSubstring t a b := by
  unfold jsSubstring
  rw [padStr_append_data, padStr_append_length]
  dsimp only
  have hL : ((n + t.length : Nat) : Int) = (n : Int) + (t.length : Int) := by push_cast; ring
  rw [hL]
  have hA : (min (max (a + n) 0) ((n : Int) + t.length)).toNat
      = n + (min (max a 0) (t.length : Int)).toNat := by omega
  have hB : (min (max (b + n) 0) ((n : Int) + t.length)).toNat
      = n + (min (max b 0) (t.length : Int)).toNat := by omega
  rw [hA, hB]
  have hmin : min (n + (min (max a 0) (t.length : Int)).toNat)
        (n + (min (max b 0) (t.length : Int)).toNat)
      = n + min (min (max a 0) (t.length : Int)).toNat
        (min (max b 0) (t.length : Int)).toNat := by omega
  have hmax : max (n + (min (max a 0) (t.length : Int)).toNat)
        (n + (min (max b 0) (t.length : Int)).toNat)
      = n + max (min (max a 0) (t.length : Int)).toNat
        (min (max b 0) (t.length : Int)).toNat := by omega
  rw [hmin, hmax, drop_pad]
  have hsub : n + max (min (max a 0) (t.length : Int)).toNat
        (min (max b 0) (t.length : Int)).toNat
      - (n + min (min (max a 0) (t.length : Int)).toNat
        (min (max b 0) (t.length : Int)).toNat)
      = max (min (max a 0) (t.length : Int)).toNat
          (min (max b 0) (t.length : Int)).toNat
        - min (min (max a 0) (t.length : Int)).toNat
          (min (max b 0) (t.length : Int)).toNat := by
    omega
  rw [hsub]

/-- `indexOf` over a padded string, for patterns not beginning with `'x'`. -/
theorem jsIndexOf_pad (n : Nat) (t pat : String) (d : Char) (tc : List Char)
    (hpat : pat.data = d :: tc) (hd : d ≠ 'x') :
    jsIndexOf (padStr n ++ t) pat
      = if jsIndexOf t pat = -1 then -1 else jsIndexOf t pat + n := by
  unfold jsIndexOf
  rw [padStr_append_data, jsIndexOfAux_pad pat.data d tc hpat hd n t.data 0,
    Nat.zero_add, jsIndexOfAux_shift]

/-- `indexOf` with a start index past the padding. -/
theorem jsIndexOfFrom_pad (n : Nat) (t pat : String) (j : Nat) :
    jsIndexOfFrom (padStr n ++ t) pat (n + j)
      = if jsIndexOfFrom t pat j = -1 then -1 else jsIndexOfFrom t pat j + n := by
  unfold jsIndexOfFrom
  rw [padStr_append_data, drop_pad, jsIndexOfAux_shift, jsIndexOfAux_shift pat.data _ j]
  rcases jsIndexOfAux_cases pat.data (t.data.drop j) 0 with h | h
  · simp [h]
  · have hne : jsIndexOfAux pat.data (t.data.drop j) 0 ≠ -1 := by omega
    have hne2 : jsIndexOfAux pat.data (t.data.drop j) 0 + (j : Int) ≠ -1 := by
      push_cast at h ⊢; omega
    rw [if_neg hne, if_neg hne, if_neg hne2]
    push_cast
    ring

/-- Block segmentation ignores a leading padding. -/
theorem blockFor_pad (n : Nat) (tail asin : String) :
    blockFor (padStr n ++ tail) asin = blockFor tail asin := by
  have hm : ("data-asin=\"" ++ asin ++ "\"").data
      = 'd' :: (("ata-asin=\"" ++ asin ++ "\"").data) := rfl
  have hm2 : ("data-asin=\"" : String).data = 'd' :: (("ata-asin=\"" : String).data) := rfl
  unfold blockFor
  dsimp only
  rw [jsIndexOf_pad n tail _ 'd' _ hm (by decide)]
  by_cases hb : jsIndexOf tail ("data-asin=\"" ++ asin ++ "\"") = -1
  · rw [if_pos hb, if_pos hb, if_pos rfl]
  · have hge : 0 ≤ jsIndexOf tail ("data-asin=\"" ++ asin ++ "\"") := by
      rcases jsIndexOfAux_cases ("data-asin=\"" ++ asin ++ "\"").data tail.data 0 with h | h
      · exact absurd h hb
      · simpa using h
    rw [if_neg hb]
    have hne : jsIndexOf tail ("data-asin=\"" ++ asin ++ "\"") + (n : Int) ≠ -1 := by omega
    rw [if_neg hne, if_neg hb]
    have ht : (jsIndexOf tail ("data-asin=\"" ++ asin ++ "\"") + (n : Int) + 20).toNat
        = n + (jsIndexOf tail ("data-asin=\"" ++ asin ++ "\"") + 20).toNat := by omega
    rw [ht, jsIndexOfFrom_pad n tail _]
    by_cases hnb : jsIndexOfFrom tail "data-asin=\""
        (jsIndexOf tail ("data-asin=\"" ++ asin ++ "\"") + 20).toNat = -1
    · rw [if_pos hnb, hnb]
      have hng : ¬ ((-1 : Int) > 0) := by omega
      rw [if_neg hng, if_neg hng]
      have harr : jsIndexOf tail ("data-asin=\"" ++ asin ++ "\"") + (n : Int) + 5000
          = (jsIndexOf tail ("data-asin=\"" ++ asin ++ "\"") + 5000) + (n : Int) := by ring
      have harr2 : jsIndexOf tail ("data-asin=\"" ++ asin ++ "\"") + (n : Int)
          = jsIndexOf tail ("data-asin=\"" ++ asin ++ "\"") + (n : Int) := rfl
      rw [harr]
      exact congrArg some (jsSubstring_pad n tail _ _ hge (by omega))
    · have hnge : 0 ≤ jsIndexOfFrom tail "data-asin=\""
          (jsIndexOf tail ("data-asin=\"" ++ asin ++ "\"") + 20).toNat := by
        unfold jsIndexOfFrom
        rcases jsIndexOfAux_cases ("data-asin=\"" : String).data
            (tail.data.drop (jsIndexOf tail ("data-asin=\"" ++ asin ++ "\"") + 20).toNat)
            (jsIndexOf tail ("data-asin=\"" ++ asin ++ "\"") + 20).toNat with h | h
        · exact absurd h hnb
        · exact le_trans (by positivity) h
      rw [if_neg hnb]
      have hpos1 : jsIndexOfFrom tail "data-asin=\""
          (jsIndexOf tail ("data-asin=\"" ++ asin ++ "\"") + 20).toNat + (n : Int) > 0 := by
        -- the next occurrence is at least the start index, which is at least 20
        have h20 : (20 : Int) ≤ ((jsIndexOf tail ("data-asin=\"" ++ asin ++ "\"") + 20).toNat : Int) := by
          omega
        have := jsIndexOfAux_cases ("data-asin=\"" : String).data
          (tail.data.drop (jsIndexOf tail ("data-asin=\"" ++ asin ++ "\"") + 20).toNat)
          (jsIndexOf tail ("data-asin=\"" ++ asin ++ "\"") + 20).toNat
        unfold jsIndexOfFrom at hnb ⊢
        rcases this with h | h
        · exact absurd h hnb
        · omega
      have hpos2 : jsIndexOfFrom tail "data-asin=\""
          (jsIndexOf tail ("data-asin=\"" ++ asin ++ "\"") + 20).toNat > 0 := by
        have h20 : (20 : Int) ≤ ((jsIndexOf tail ("data-asin=\"" ++ asin ++ "\"") + 20).toNat : Int) := by
          omega
        have := jsIndexOfAux_cases ("data-asin=\"" : String).data
          (tail.data.drop (jsIndexOf tail ("data-asin=\"" ++ asin ++ "\"") + 20).toNat)
          (jsIndexOf tail ("data-asin=\"" ++ asin ++ "\"") + 20).toNat
        unfold jsIndexOfFrom at hnb ⊢
        rcases this with h | h
        · exact absurd h hnb
        · omega
      rw [if_pos hpos1, if_pos hpos2]
      have harr : jsIndexOfFrom tail "data-asin=\""
            (jsIndexOf tail ("data-asin=\"" ++ asin ++ "\"") + 20).toNat + (n : Int)
          = jsIndexOfFrom tail "data-asin=\""
            (jsIndexOf tail ("data-asin=\"" ++ asin ++ "\"") + 20).toNat + (n : Int) := rfl
      exact congrArg some (jsSubstring_pad n tail _ _ hge (by omega))

/-! # Evaluation of the concrete pages -/

theorem blockedBody_pad (tail : String) (hc : 'h' ∉ tail.data) (hm : 'm' ∉ tail.data) :
    blockedBody (padStr 5000 ++ tail) = false := by
  unfold blockedBody
  have h1 : strIncludes (padStr 5000 ++ tail) "captcha" = false := by
    refine strIncludes_eq_false _ _ 'h' (by decide) ?_
    rw [padStr_append_data]
    intro hmem
    rcases List.mem_append.mp hmem with h | h
    · exact absurd (List.eq_of_mem_replicate h) (by decide)
    · exact hc h
  have h2 : strIncludes (padStr 5000 ++ tail) "automated access" = false := by
    refine strIncludes_eq_false _ _ 'm' (by decide) ?_
    rw [padStr_append_data]
    intro hmem
    rcases List.mem_append.mp hmem with h | h
    · exact absurd (List.eq_of_mem_replicate h) (by decide)
    · exact hm h
  have h3 : decide ((padStr 5000 ++ tail).length < 5000) = false := by
    rw [decide_eq_false_iff_not, padStr_append_length]
    omega
  rw [h1, h2, h3]
  rfl

theorem blockedBody_pageA : blockedBody pageA = false := by
  unfold pageA
  exact blockedBody_pad blockA (by decide) (by decide)

theorem blockedBody_pageAB : blockedBody pageAB = false := by
  unfold pageAB
  exact blockedBody_pad (blockA ++ blockB) (by decide) (by decide)

theorem scanAsins_pageA : scanAsins pageA = ["AAAAAAAAA1"] := by
  unfold pageA
  rw [scanAsins_pad]
  decide

theorem scanAsins_pageAB : scanAsins pageAB = ["AAAAAAAAA1", "BBBBBBBBB2"] := by
  unfold pageAB
  rw [scanAsins_pad]
  decide

theorem blockFor_pageA_A : blockFor pageA "AAAAAAAAA1" = some blockA := by
  unfold pageA
  rw [blockFor_pad]
  decide

theorem blockFor_pageAB_A : blockFor pageAB "AAAAAAAAA1" = some blockA := by
  unfold pageAB
  rw [blockFor_pad]
  decide

theorem blockFor_pageAB_B : blockFor pageAB "BBBBBBBBB2" = some blockB := by
  unfold pageAB
  rw [blockFor_pad]
  decide

theorem extractItem_blockA (q : SearchQuery) :
    extractItem q "AAAAAAAAA1" blockA (bmOracle blockA) = some (prodA q) := rfl

theorem extractItem_blockB (q : SearchQuery) :
    extractItem q "BBBBBBBBB2" blockB (bmOracle blockB) = some (prodB q) := rfl

/-! # Step lemmas for the extraction loop and the query loop -/

theorem extractLoop_nil (bmOf : String → BlockMatches) (q : SearchQuery) (html : String)
    (cap : Nat) (acc : List Product) : extractLoop bmOf q html cap [] acc = acc := rfl

theorem extractLoop_stop (bmOf : String → BlockMatches) (q : SearchQuery) (html : String)
    (cap : Nat) (a : String) (rest : List String) (acc : List Product)
    (hlen : acc.length ≥ cap) :
    extractLoop bmOf q html cap (a :: rest) acc = acc := by
  rw [extractLoop, if_pos hlen]

theorem extractLoop_cons_some (bmOf : String → BlockMatches) (q : SearchQuery) (html : String)
    (cap : Nat) (a : String) (rest : List String) (acc : List Product)
    (blk : String) (p : Product)
    (hlen : ¬ (acc.length ≥ cap)) (hblk : blockFor html a = some blk)
    (hx : extractItem q a blk (bmOf blk) = some p) :
    extractLoop bmOf q html cap (a :: rest) acc
      = extractLoop bmOf q html cap rest (acc ++ [p]) := by
  rw [extractLoop, if_neg hlen, hblk]
  dsimp only
  rw [hx]

theorem extractLoop_cons_noblock (bmOf : String → BlockMatches) (q : SearchQuery)
    (html : String) (cap : Nat) (a : String) (rest : List String) (acc : List Product)
    (hlen : ¬ (acc.length ≥ cap)) (hblk : blockFor html a = none) :
    extractLoop bmOf q html cap (a :: rest) acc = extractLoop bmOf q html cap rest acc := by
  rw [extractLoop, if_neg hlen, hblk]

theorem extractLoop_cons_noitem (bmOf : String → BlockMatches) (q : SearchQuery)
    (html : String) (cap : Nat) (a : String) (rest : List String) (acc : List Product)
    (blk : String)
    (hlen : ¬ (acc.length ≥ cap)) (hblk : blockFor html a = some blk)
    (hx : extractItem q a blk (bmOf blk) = none) :
    extractLoop bmOf q html cap (a :: rest) acc = extractLoop bmOf q html cap rest acc := by
  rw [extractLoop, if_neg hlen, hblk]
  dsimp only
  rw [hx]

theorem processQuery_threw (bmOf : String → BlockMatches) (fetch : SearchQuery → FetchOutcome)
    (insertOk : SearchQuery → List Product → Bool) (cap : Nat) (st : RunState)
    (q : SearchQuery) (h : fetch q = .threw) :
    processQuery bmOf fetch insertOk cap st q
      = { st with errorsCount := st.errorsCount + 1 } := by
  unfold processQuery
  rw [h]

theorem processQuery_httpError (bmOf : String → BlockMatches) (fetch : SearchQuery → FetchOutcome)
    (insertOk : SearchQuery → List Product → Bool) (cap : Nat) (st : RunState)
    (q : SearchQuery) (html : String) (h : fetch q = .got false html) :
    processQuery bmOf fetch insertOk cap st q
      = { st with errorsCount := st.errorsCount + 1 } := by
  unfold processQuery
  rw [h]
  rfl

theorem processQuery_blocked (bmOf : String → BlockMatches) (fetch : SearchQuery → FetchOutcome)
    (insertOk : SearchQuery → List Product → Bool) (cap : Nat) (st : RunState)
    (q : SearchQuery) (html : String) (h : fetch q = .got true html)
    (hb : blockedBody html = true) :
    processQuery bmOf fetch insertOk cap st q
      = { st with errorsCount := st.errorsCount + 1 } := by
  unfold processQuery
  rw [h]
  dsimp only
  rw [hb]
  rfl

theorem processQuery_usable (bmOf : String → BlockMatches) (fetch : SearchQuery → FetchOutcome)
    (insertOk : SearchQuery → List Product → Bool) (cap : Nat) (st : RunState)
    (q : SearchQuery) (html : String) (h : fetch q = .got true html)
    (hb : blockedBody html = false) :
    processQuery bmOf fetch insertOk cap st q =
      (let allAsins := scanAsins html
       let newAsins := allAsins.filter (fun a => !st.existingAsins.contains a)
       let skippedCount := allAsins.length - newAsins.length
       let products := queryProducts bmOf q html cap st.existingAsins
       let st1 := { st with totalSkipped := st.totalSkipped + skippedCount,
                            totalFound := st.totalFound + products.length }
       if products.length > 0 then
         if insertOk q products then
           { st1 with totalSaved := st1.totalSaved + products.length,
                      existingAsins := products.foldl (fun s p => setAdd s p.amazonAsin)
                        st1.existingAsins,
                      storage := st1.storage ++ products }
         else { st1 with errorsCount := st1.errorsCount + products.length }
       else st1) := by
  unfold processQuery
  rw [h]
  dsimp only
  rw [hb]
  rfl

/-! # Evaluation of whole query steps on the concrete pages -/

theorem queryProducts_pageA_empty (q : SearchQuery) :
    queryProducts bmOracle q pageA 30 [] = [prodA q] := by
  unfold queryProducts
  rw [scanAsins_pageA]
  rw [show (["AAAAAAAAA1"].filter (fun a => !([] : List String).contains a))
      = ["AAAAAAAAA1"] from rfl]
  rw [extractLoop_cons_some bmOracle q pageA 30 _ _ _ blockA (prodA q) (by decide)
    blockFor_pageA_A (extractItem_blockA q)]
  rfl

theorem queryProducts_pageA_known (q : SearchQuery) :
    queryProducts bmOracle q pageA 30 ["AAAAAAAAA1"] = [] := by
  unfold queryProducts
  rw [scanAsins_pageA]
  rfl

theorem queryProducts_pageAB_empty (q : SearchQuery) :
    queryProducts bmOracle q pageAB 30 [] = [prodA q, prodB q] := by
  unfold queryProducts
  rw [scanAsins_pageAB]
  rw [show (["AAAAAAAAA1", "BBBBBBBBB2"].filter (fun a => !([] : List String).contains a))
      = ["AAAAAAAAA1", "BBBBBBBBB2"] from rfl]
  rw [extractLoop_cons_some bmOracle q pageAB 30 _ _ _ blockA (prodA q) (by decide)
    blockFor_pageAB_A (extractItem_blockA q)]
  rw [show ([] : List Product) ++ [prodA q] = [prodA q] from rfl]
  rw [extractLoop_cons_some bmOracle q pageAB 30 _ _ _ blockB (prodB q) (by simp)
    blockFor_pageAB_B (extractItem_blockB q)]
  rfl

theorem queryProducts_pageAB_cap1_empty (q : SearchQuery) :
    queryProducts bmOracle q pageAB 1 [] = [prodA q] := by
  unfold queryProducts
  rw [scanAsins_pageAB]
  rw [show (["AAAAAAAAA1", "BBBBBBBBB2"].filter (fun a => !([] : List String).contains a))
      = ["AAAAAAAAA1", "BBBBBBBBB2"] from rfl]
  rw [extractLoop_cons_some bmOracle q pageAB 1 _ _ _ blockA (prodA q) (by decide)
    blockFor_pageAB_A (extractItem_blockA q)]
  rw [show ([] : List Product) ++ [prodA q] = [prodA q] from rfl]
  rw [extractLoop_stop bmOracle q pageAB 1 _ _ _ (by simp)]

theorem queryProducts_pageAB_cap1_knownA (q : SearchQuery) :
    queryProducts bmOracle q pageAB 1 ["AAAAAAAAA1"] = [prodB q] := by
  unfold queryProducts
  rw [scanAsins_pageAB]
  rw [show (["AAAAAAAAA1", "BBBBBBBBB2"].filter
      (fun a => !(["AAAAAAAAA1"] : List String).contains a)) = ["BBBBBBBBB2"] from rfl]
  rw [extractLoop_cons_some bmOracle q pageAB 1 _ _ _ blockB (prodB q) (by decide)
    blockFor_pageAB_B (extractItem_blockB q)]
  rfl

theorem pq_AB_insertFail (st : RunState) (q : SearchQuery) (hknown : st.existingAsins = []) :
    processQuery bmOracle fetchAB insertNever 30 st q
      = { st with totalFound := st.totalFound + 2, errorsCount := st.errorsCount + 2 } := by
  rw [processQuery_usable bmOracle fetchAB insertNever 30 st q pageAB rfl blockedBody_pageAB]
  dsimp only
  rw [scanAsins_pageAB, hknown, queryProducts_pageAB_empty]
  simp [insertNever]

theorem pq_AB_cap1_ok (st : RunState) (q : SearchQuery) (hknown : st.existingAsins = []) :
    processQuery bmOracle fetchAB insertAlways 1 st q
      = { st with totalFound := st.totalFound + 1, totalSaved := st.totalSaved + 1,
                  existingAsins := ["AAAAAAAAA1"],
                  storage := st.storage ++ [prodA q] } := by
  rw [processQuery_usable bmOracle fetchAB insertAlways 1 st q pageAB rfl blockedBody_pageAB]
  dsimp only
  rw [scanAsins_pageAB, hknown, queryProducts_pageAB_cap1_empty]
  simp [insertAlways, setAdd, prodA]

theorem pq_AB_cap1_knownA (st : RunState) (q : SearchQuery)
    (hknown : st.existingAsins = ["AAAAAAAAA1"]) :
    processQuery bmOracle fetchAB insertAlways 1 st q
      = { st with totalFound := st.totalFound + 1, totalSaved := st.totalSaved + 1,
                  totalSkipped := st.totalSkipped + 1,
                  existingAsins := ["AAAAAAAAA1", "BBBBBBBBB2"],
                  storage := st.storage ++ [prodB q] } := by
  rw [processQuery_usable bmOracle fetchAB insertAlways 1 st q pageAB rfl blockedBody_pageAB]
  dsimp only
  rw [scanAsins_pageAB, hknown, queryProducts_pageAB_cap1_knownA]
  simp [insertAlways, setAdd, prodB]

theorem pq_A_knownA (st : RunState) (q : SearchQuery)
    (hknown : st.existingAsins = ["AAAAAAAAA1"]) :
    processQuery bmOracle fetchA insertAlways 30 st q
      = { st with totalSkipped := st.totalSkipped + 1 } := by
  rw [processQuery_usable bmOracle fetchA insertAlways 30 st q pageA rfl blockedBody_pageA]
  dsimp only
  rw [scanAsins_pageA, hknown, queryProducts_pageA_known]
  simp

theorem pq_A_empty_ok (st : RunState) (q : SearchQuery) (hknown : st.existingAsins = []) :
    processQuery bmOracle fetchA insertAlways 30 st q
      = { st with totalFound := st.totalFound + 1, totalSaved := st.totalSaved + 1,
                  existingAsins := ["AAAAAAAAA1"],
                  storage := st.storage ++ [prodA q] } := by
  rw [processQuery_usable bmOracle fetchA insertAlways 30 st q pageA rfl blockedBody_pageA]
  dsimp only
  rw [scanAsins_pageA, hknown, queryProducts_pageA_empty]
  simp [insertAlways, setAdd, prodA]

/-! # Evaluation of whole runs on the concrete scenarios -/

theorem runC1_eval :
    runLightScrape bmOracle fetchAB insertNever (.ok []) [] (some ["resin", "3d_pen"]) 30
      = { status := "partial", totalFound := 6, totalSaved := 0, errorsCount := 6,
          finalState :=
            { totalFound := 6, totalSaved := 0, totalSkipped := 0,
              errorsCount := 6, existingAsins := [], storage := [] } } := by
  unfold runLightScrape runScrapeOn
  rw [show selectSearches (some ["resin", "3d_pen"]) SCRAPE_SEARCHES
      = [⟨"UV+resin+for+3D+printer", "resin", "uv_resin", "UV Resin"⟩,
         ⟨"3D+printer+wash+cure+resin", "resin", "uv_resin", "Wash & Cure Resin"⟩,
         ⟨"3D+pen", "3d_pen", "3d_pen", "3D Pen"⟩] from by simp [selectSearches, SCRAPE_SEARCHES, List.filter, List.contains]]
  rw [List.foldl_cons, pq_AB_insertFail _ _ rfl]
  rw [List.foldl_cons, pq_AB_insertFail _ _ rfl]
  rw [List.foldl_cons, pq_AB_insertFail _ _ rfl]
  rw [List.foldl_nil]
  rfl

theorem runC8_first :
    runLightScrape bmOracle fetchAB insertAlways (.ok []) [] (some ["3d_pen"]) 1
      = { status := "success", totalFound := 1, totalSaved := 1, errorsCount := 0,
          finalState :=
            { totalFound := 1, totalSaved := 1, totalSkipped := 0,
              errorsCount := 0, existingAsins := ["AAAAAAAAA1"],
              storage := [prodA ⟨"3D+pen", "3d_pen", "3d_pen", "3D Pen"⟩] } } := by
  unfold runLightScrape runScrapeOn
  rw [show selectSearches (some ["3d_pen"]) SCRAPE_SEARCHES
      = [⟨"3D+pen", "3d_pen", "3d_pen", "3D Pen"⟩] from by simp [selectSearches, SCRAPE_SEARCHES, List.filter, List.contains]]
  rw [List.foldl_cons, pq_AB_cap1_ok _ _ rfl, List.foldl_nil]
  rfl

theorem runC8_second :
    runLightScrape bmOracle fetchAB insertAlways (.ok [["AAAAAAAAA1"]])
        [prodA ⟨"3D+pen", "3d_pen", "3d_pen", "3D Pen"⟩] (some ["3d_pen"]) 1
      = { status := "success", totalFound := 1, totalSaved := 1, errorsCount := 0,
          finalState :=
            { totalFound := 1, totalSaved := 1, totalSkipped := 1,
              errorsCount := 0, existingAsins := ["AAAAAAAAA1", "BBBBBBBBB2"],
              storage := [prodA ⟨"3D+pen", "3d_pen", "3d_pen", "3D Pen"⟩,
                prodB ⟨"3D+pen", "3d_pen", "3d_pen", "3D Pen"⟩] } } := by
  unfold runLightScrape runScrapeOn
  rw [show selectSearches (some ["3d_pen"]) SCRAPE_SEARCHES
      = [⟨"3D+pen", "3d_pen", "3d_pen", "3D Pen"⟩] from by simp [selectSearches, SCRAPE_SEARCHES, List.filter, List.contains]]
  rw [List.foldl_cons, pq_AB_cap1_knownA _ _ rfl, List.foldl_nil]
  rfl

theorem runC5_eval :
    runLightScrape bmOracle fetchA insertAlways (.ok [["AAAAAAAAA1"]]) [prodK]
        (some ["3d_pen"]) 30
      = { status := "success", totalFound := 0, totalSaved := 0, errorsCount := 0,
          finalState :=
            { totalFound := 0, totalSaved := 0, totalSkipped := 1,
              errorsCount := 0, existingAsins := ["AAAAAAAAA1"], storage := [prodK] } } := by
  unfold runLightScrape runScrapeOn
  rw [show selectSearches (some ["3d_pen"]) SCRAPE_SEARCHES
      = [⟨"3D+pen", "3d_pen", "3d_pen", "3D Pen"⟩] from by simp [selectSearches, SCRAPE_SEARCHES, List.filter, List.contains]]
  rw [List.foldl_cons, pq_A_knownA _ _ rfl, List.foldl_nil]
  rfl

theorem runC10_eval :
    runLightScrape bmOracle fetchA insertAlways (.failed []) [prodK] (some ["3d_pen"]) 30
      = { status := "success", totalFound := 1, totalSaved := 1, errorsCount := 0,
          finalState :=
            { totalFound := 1, totalSaved := 1, totalSkipped := 0,
              errorsCount := 0, existingAsins := ["AAAAAAAAA1"],
              storage := [prodK, prodA ⟨"3D+pen", "3d_pen", "3d_pen", "3D Pen"⟩] } } := by
  unfold runLightScrape runScrapeOn
  rw [show selectSearches (some ["3d_pen"]) SCRAPE_SEARCHES
      = [⟨"3D+pen", "3d_pen", "3d_pen", "3D Pen"⟩] from by simp [selectSearches, SCRAPE_SEARCHES, List.filter, List.contains]]
  rw [List.foldl_cons, pq_A_empty_ok _ _ rfl, List.foldl_nil]
  rfl

/-! # Structural lemmas about extraction -/

/-- An extracted record carries the ASIN of the block it came from. -/
theorem extractItem_asin (q : SearchQuery) (a blk : String) (bm : BlockMatches)
    (p : Product) (h : extractItem q a blk bm = some p) : p.amazonAsin = a := by
  unfold extractItem at h
  rcases hsel : selectTitle bm with _ | t
  · rw [hsel] at h; exact absurd h (by simp)
  · rw [hsel] at h
    dsimp only at h
    by_cases hg : isGarbageTitle t = true
    · rw [if_pos hg] at h; exact absurd h (by simp)
    · rw [if_neg hg] at h
      rcases hfp : findPrice blk with _ | cap
      · rw [hfp] at h; exact absurd h (by simp)
      · rw [hfp] at h
        dsimp only at h
        by_cases hp : parseCents cap ≤ 0
        · rw [if_pos hp] at h; exact absurd h (by simp)
        · rw [if_neg hp] at h
          cases h
          rfl

/-- An extracted record has locale `us`. -/
theorem extractItem_locale (q : SearchQuery) (a blk : String) (bm : BlockMatches)
    (p : Product) (h : extractItem q a blk bm = some p) : p.locale = "us" := by
  unfold extractItem at h
  rcases hsel : selectTitle bm with _ | t
  · rw [hsel] at h; exact absurd h (by simp)
  · rw [hsel] at h
    dsimp only at h
    by_cases hg : isGarbageTitle t = true
    · rw [if_pos hg] at h; exact absurd h (by simp)
    · rw [if_neg hg] at h
      rcases hfp : findPrice blk with _ | cap
      · rw [hfp] at h; exact absurd h (by simp)
      · rw [hfp] at h
        dsimp only at h
        by_cases hp : parseCents cap ≤ 0
        · rw [if_pos hp] at h; exact absurd h (by simp)
        · rw [if_neg hp] at h
          cases h
          rfl

/-- The accumulated products persist through the loop. -/
theorem extractLoop_acc_sub (bmOf : String → BlockMatches) (q : SearchQuery) (html : String)
    (cap : Nat) : ∀ (asins : List String) (acc : List Product) (p : Product),
    p ∈ acc → p ∈ extractLoop bmOf q html cap asins acc := by
  intro asins
  induction asins with
  | nil => intro acc p hp; rw [extractLoop_nil]; exact hp
  | cons a rest ih =>
    intro acc p hp
    by_cases hlen : acc.length ≥ cap
    · rw [extractLoop_stop _ _ _ _ _ _ _ hlen]; exact hp
    · rcases hblk : blockFor html a with _ | blk
      · rw [extractLoop_cons_noblock _ _ _ _ _ _ _ hlen hblk]; exact ih acc p hp
      · rcases hx : extractItem q a blk (bmOf blk) with _ | p'
        · rw [extractLoop_cons_noitem _ _ _ _ _ _ _ _ hlen hblk hx]; exact ih acc p hp
        · rw [extractLoop_cons_some _ _ _ _ _ _ _ _ _ hlen hblk hx]
          exact ih (acc ++ [p']) p (List.mem_append_left _ hp)

/-- Every product the loop emits either was already accumulated or was
extracted from the block of one of the listed identifiers. -/
theorem extractLoop_mem (bmOf : String → BlockMatches) (q : SearchQuery) (html : String)
    (cap : Nat) : ∀ (asins : List String) (acc : List Product) (p : Product),
    p ∈ extractLoop bmOf q html cap asins acc →
    p ∈ acc ∨ ∃ a ∈ asins, ∃ blk, blockFor html a = some blk
      ∧ extractItem q a blk (bmOf blk) = some p := by
  intro asins
  induction asins with
  | nil => intro acc p h; rw [extractLoop_nil] at h; exact Or.inl h
  | cons a rest ih =>
    intro acc p h
    by_cases hlen : acc.length ≥ cap
    · rw [extractLoop_stop _ _ _ _ _ _ _ hlen] at h; exact Or.inl h
    · rcases hblk : blockFor html a with _ | blk
      · rw [extractLoop_cons_noblock _ _ _ _ _ _ _ hlen hblk] at h
        rcases ih acc p h with h' | ⟨a', ha', blk, h1, h2⟩
        · exact Or.inl h'
        · exact Or.inr ⟨a', List.mem_cons_of_mem _ ha', blk, h1, h2⟩
      · rcases hx : extractItem q a blk (bmOf blk) with _ | p'
        · rw [extractLoop_cons_noitem _ _ _ _ _ _ _ _ hlen hblk hx] at h
          rcases ih acc p h with h' | ⟨a', ha', blk', h1, h2⟩
          · exact Or.inl h'
          · exact Or.inr ⟨a', List.mem_cons_of_mem _ ha', blk', h1, h2⟩
        · rw [extractLoop_cons_some _ _ _ _ _ _ _ _ _ hlen hblk hx] at h
          rcases ih (acc ++ [p']) p h with h' | ⟨a', ha', blk', h1, h2⟩
          · rcases List.mem_append.mp h' with h'' | h''
            · exact Or.inl h''
            · have : p = p' := by simpa using h''
              subst this
              exact Or.inr ⟨a, List.mem_cons_self a rest, blk, hblk, hx⟩
          · exact Or.inr ⟨a', List.mem_cons_of_mem _ ha', blk', h1, h2⟩

/-! # Title selection lemmas -/

/-- One pattern's candidate loop is exactly `find?` of the non-garbage
predicate over the trimmed candidates. -/
theorem pickFirst_eq_find : ∀ (l : List String),
    pickFirst l = (l.map jsTrim).find? (fun t => !isGarbageTitle t) := by
  intro l
  induction l with
  | nil => rfl
  | cons c rest ih =>
    unfold pickFirst
    dsimp only
    rw [List.map_cons, List.find?_cons]
    by_cases hg : isGarbageTitle (jsTrim c) = true
    · simp [hg, ih]
    · simp [hg]

theorem pickFirst_append : ∀ (l1 l2 : List String),
    pickFirst (l1 ++ l2) = (match pickFirst l1 with
      | some t => some t
      | none => pickFirst l2) := by
  intro l1 l2
  induction l1 with
  | nil => rfl
  | cons c rest ih =>
    rw [List.cons_append]
    cases hg : isGarbageTitle (jsTrim c) with
    | true =>
      have h1 : pickFirst (c :: (rest ++ l2)) = pickFirst (rest ++ l2) := by
        show (if (!isGarbageTitle (jsTrim c)) = true then some (jsTrim c)
          else pickFirst (rest ++ l2)) = pickFirst (rest ++ l2)
        rw [hg]
        rfl
      have h2 : pickFirst (c :: rest) = pickFirst rest := by
        show (if (!isGarbageTitle (jsTrim c)) = true then some (jsTrim c)
          else pickFirst rest) = pickFirst rest
        rw [hg]
        rfl
      rw [h1, h2]
      exact ih
    | false =>
      have h1 : pickFirst (c :: (rest ++ l2)) = some (jsTrim c) := by
        show (if (!isGarbageTitle (jsTrim c)) = true then some (jsTrim c)
          else pickFirst (rest ++ l2)) = some (jsTrim c)
        rw [hg]
        rfl
      have h2 : pickFirst (c :: rest) = some (jsTrim c) := by
        show (if (!isGarbageTitle (jsTrim c)) = true then some (jsTrim c)
          else pickFirst rest) = some (jsTrim c)
        rw [hg]
        rfl
      rw [h1, h2]

/-- The ordered fallback over the three patterns is `find?` of the
non-garbage predicate over all trimmed candidates in pattern order. -/
theorem selectTitle_eq_find (bm : BlockMatches) :
    selectTitle bm
      = ((bm.p1 ++ bm.p2 ++ bm.p3).map jsTrim).find? (fun t => !isGarbageTitle t) := by
  have h1 : selectTitle bm = pickFirst (bm.p1 ++ (bm.p2 ++ bm.p3)) := by
    rw [pickFirst_append, pickFirst_append]
    rfl
  rw [h1, pickFirst_eq_find, List.append_assoc]

theorem isGarbage_short (t : String) (h : t.length < 10) : isGarbageTitle t = true := by
  unfold isGarbageTitle
  rw [if_pos h]

theorem isGarbage_stars (t : String) (h : starsPattern t = true) : isGarbageTitle t = true := by
  unfold isGarbageTitle
  simp [h]

theorem isGarbage_numeric (t : String) (h : numericNoiseOnly t = true) :
    isGarbageTitle t = true := by
  unfold isGarbageTitle
  simp [h]

theorem isGarbage_boilerplate (t b : String)
    (hb : b ∈ ["Check each product", "buying options", "Sponsored", "Best Seller"])
    (h : strIncludes t b = true) : isGarbageTitle t = true := by
  fin_cases hb <;> simp [isGarbageTitle, h]

/-- A missing title drops the item, and the loop records no error and no
product for it. -/
theorem extractItem_noTitle (q : SearchQuery) (a blk : String) (bm : BlockMatches)
    (h : selectTitle bm = none) : extractItem q a blk bm = none := by
  unfold extractItem
  rw [h]

/-! # Price pattern lemmas -/

theorem takeWhile_all_append (p : Char → Bool) (l1 l2 : List Char)
    (h : ∀ x ∈ l1, p x = true) :
    (l1 ++ l2).takeWhile p = l1 ++ l2.takeWhile p := by
  induction l1 with
  | nil => simp
  | cons c rest ih =>
    have hc := h c (List.mem_cons_self c rest)
    simp only [List.cons_append, List.takeWhile_cons, hc, if_true]
    rw [ih (fun x hx => h x (List.mem_cons_of_mem _ hx))]

theorem priceCapture_shape (s c : List Char) (h : priceCapture s = some c) :
    priceShape (String.mk c) = true := by
  unfold priceCapture at h
  dsimp only at h
  split at h
  · exact absurd h (by simp)
  · rename_i hrunne
    split at h
    · rename_i d1 d2 r heq
      split at h
      · rename_i hcond
        injection h with hc
        subst hc
        have hall : ∀ x ∈ s.takeWhile (fun c => c.isDigit || c = ','),
            (fun c => c.isDigit || decide (c = ',')) x = true := by
          intro x hx
          have hp := List.mem_takeWhile_imp hx
          exact hp
        unfold priceShape
        dsimp only
        rw [takeWhile_all_append _ _ _ hall]
        have hdots : (['.', d1, d2].takeWhile fun c => c.isDigit || decide (c = ',')) = [] := by
          rw [List.takeWhile_cons]
          simp
        rw [hdots, List.append_nil, List.drop_left]
        simp only [Bool.and_eq_true] at hcond
        have hrun' : (s.takeWhile (fun c => c.isDigit || decide (c = ','))).isEmpty = false := by
          cases hx : (s.takeWhile (fun c => c.isDigit || decide (c = ','))).isEmpty with
          | false => rfl
          | true => exact absurd hx hrunne
        rw [hrun']
        show (!false && (d1.isDigit && d2.isDigit)) = true
        rw [hcond.1.1, hcond.1.2]
        rfl
      · exact absurd h (by simp)
    · exact absurd h (by simp)

theorem priceInner_shape (s c : List Char) (h : priceInner s = some c) :
    priceShape (String.mk c) = true := by
  unfold priceInner at h
  split at h
  · exact absurd h (by simp)
  · split at h
    · exact absurd h (by simp)
    · split at h
      · rename_i r3 heq
        exact priceCapture_shape _ _ h
      · exact absurd h (by simp)

theorem priceLazy_shape : ∀ (s c : List Char), priceLazy s = some c →
    priceShape (String.mk c) = true := by
  intro s
  induction s with
  | nil => intro c h; exact absurd h (by simp [priceLazy])
  | cons a r ih =>
    intro c h
    rw [priceLazy] at h
    split at h
    · rename_i c' hinner
      cases h
      exact priceInner_shape _ _ hinner
    · exact ih c h

theorem priceAt_shape (s c : List Char) (h : priceAt s = some c) :
    priceShape (String.mk c) = true := by
  unfold priceAt at h
  split at h
  · exact absurd h (by simp)
  · split at h
    · exact absurd h (by simp)
    · exact priceLazy_shape _ _ h

theorem findPriceAux_shape : ∀ (l c : List Char), findPriceAux l = some c →
    priceShape (String.mk c) = true := by
  intro l
  induction l with
  | nil => intro c h; exact absurd h (by simp [findPriceAux])
  | cons a r ih =>
    intro c h
    rw [findPriceAux] at h
    split at h
    · rename_i c' hat
      cases h
      exact priceAt_shape _ _ hat
    · exact ih c h

/-- Every capture the price pattern returns has the two-decimal shape. -/
theorem findPrice_shape (blk cap : String) (h : findPrice blk = some cap) :
    priceShape cap = true := by
  unfold findPrice at h
  rcases haux : findPriceAux blk.data with _ | c
  · rw [haux] at h; exact absurd h (by simp)
  · rw [haux] at h
    simp only [Option.map_some'] at h
    cases h
    exact findPriceAux_shape _ _ haux

/-- No price capture in the block: the item is dropped. -/
theorem extractItem_noPrice (q : SearchQuery) (a blk : String) (bm : BlockMatches)
    (h : findPrice blk = none) : extractItem q a blk bm = none := by
  unfold extractItem
  rcases selectTitle bm with _ | t
  · rfl
  · dsimp only
    by_cases hg : isGarbageTitle t = true
    · rw [if_pos hg]
    · rw [if_neg hg, h]

/-- A non-positive parsed price: the item is dropped. -/
theorem extractItem_nonposPrice (q : SearchQuery) (a blk : String) (bm : BlockMatches)
    (cap : String) (h : findPrice blk = some cap) (hp : parseCents cap ≤ 0) :
    extractItem q a blk bm = none := by
  unfold extractItem
  rcases selectTitle bm with _ | t
  · rfl
  · dsimp only
    by_cases hg : isGarbageTitle t = true
    · rw [if_pos hg]
    · rw [if_neg hg, h]
      dsimp only
      rw [if_pos hp]

/-! # Claim theorems -/

/-- C2: a fetched page whose body contains a challenge marker or is under
5000 characters is classified `Blocked`; the query then increments only the
error counter (by one), leaving the found, saved and skipped counters, the
known-identifier set and the stored table unchanged — and the result does
not depend on the title-pattern oracle at all, so no segmentation or field
extraction is attempted for that query. -/
theorem claim_C2 (fetch : SearchQuery → FetchOutcome) (q : SearchQuery) (body : String)
    (h1 : fetch q = .got true body) (h2 : blockedBody body = true) :
    classifyPage true body = .blocked ∧
    ∀ (bmOf : String → BlockMatches) (insertOk : SearchQuery → List Product → Bool)
      (cap : Nat) (st : RunState),
      processQuery bmOf fetch insertOk cap st q
        = { st with errorsCount := st.errorsCount + 1 } := by
  constructor
  · unfold classifyPage
    simp [h2]
  · intro bmOf insertOk cap st
    exact processQuery_blocked bmOf fetch insertOk cap st q body h1 h2

/-- Witness for C2 on a concrete blocked body. -/
theorem claim_C2_witness :
    classifyPage true "captcha" = .blocked ∧
    processQuery bmOracle (fun _ => .got true "captcha") insertAlways 30
        (initState [] []) ⟨"q", "c", "t", "l"⟩
      = { initState [] [] with errorsCount := 1 } := by
  have h := claim_C2 (fun _ => .got true "captcha") ⟨"q", "c", "t", "l"⟩ "captcha"
    rfl (by decide)
  exact ⟨h.1, h.2 bmOracle insertAlways 30 (initState [] [])⟩

/-- C3: an identifier in the known set at the start of a query's processing
never appears among that query's extracted candidates — extraction is
attempted only on identifiers outside the set. -/
theorem claim_C3 (bmOf : String → BlockMatches) (q : SearchQuery) (html : String)
    (cap : Nat) (known : List String) (a : String) (ha : known.contains a = true) :
    ∀ p ∈ queryProducts bmOf q html cap known, p.amazonAsin ≠ a := by
  intro p hp
  rcases extractLoop_mem bmOf q html cap _ _ p hp with h | ⟨a', ha', blk, h1, h2⟩
  · simp at h
  · have hasin := extractItem_asin q a' blk (bmOf blk) p h2
    rw [hasin]
    rcases List.mem_filter.mp ha' with ⟨_, hcond⟩
    intro heq
    rw [heq, ha] at hcond
    simp at hcond

/-- Witness for C3: a known identifier on a two-item page yields no
candidate with that identifier (the other item is still extracted). -/
theorem claim_C3_witness :
    (["AAAAAAAAA1"] : List String).contains "AAAAAAAAA1" = true ∧
    queryProducts bmOracle ⟨"q", "c", "t", "l"⟩ (blockA ++ blockB) 30 ["AAAAAAAAA1"] ≠ [] ∧
    ∀ p ∈ queryProducts bmOracle ⟨"q", "c", "t", "l"⟩ (blockA ++ blockB) 30 ["AAAAAAAAA1"],
      p.amazonAsin ≠ "AAAAAAAAA1" := by
  refine ⟨by decide, by decide, ?_⟩
  exact claim_C3 bmOracle ⟨"q", "c", "t", "l"⟩ (blockA ++ blockB) 30 ["AAAAAAAAA1"]
    "AAAAAAAAA1" (by decide)

/-- C4: the garbage filter rejects titles shorter than 10 characters,
titles matching the "N out of 5 stars" shape, purely numeric/currency
strings, and titles containing any of the four boilerplate substrings; the
ordered title patterns select the first non-garbage trimmed candidate
(`find?` over the candidates in pattern order); with no non-garbage
candidate the item is dropped by the loop without touching any counter;
and on a span whose first pattern captures boilerplate while the second
captures a valid 40-character title, the second is selected. -/
theorem claim_C4 :
    (∀ t : String, t.length < 10 → isGarbageTitle t = true) ∧
    (∀ t : String, starsPattern t = true → isGarbageTitle t = true) ∧
    (∀ t : String, numericNoiseOnly t = true → isGarbageTitle t = true) ∧
    (∀ t b : String,
      b ∈ ["Check each product", "buying options", "Sponsored", "Best Seller"] →
      strIncludes t b = true → isGarbageTitle t = true) ∧
    (∀ bm : BlockMatches, selectTitle bm
      = ((bm.p1 ++ bm.p2 ++ bm.p3).map jsTrim).find? (fun t => !isGarbageTitle t)) ∧
    (∀ (q : SearchQuery) (a blk : String) (bm : BlockMatches),
      selectTitle bm = none → extractItem q a blk bm = none) ∧
    (∀ (bmOf : String → BlockMatches) (q : SearchQuery) (html : String) (cap : Nat)
      (a : String) (rest : List String) (acc : List Product) (blk : String),
      ¬ (acc.length ≥ cap) → blockFor html a = some blk →
      extractItem q a blk (bmOf blk) = none →
      extractLoop bmOf q html cap (a :: rest) acc = extractLoop bmOf q html cap rest acc) ∧
    ("ACME X1 Carbon 3D Printer Kits 256x256mm" : String).length = 40 ∧
    selectTitle bmBoiler = some "ACME X1 Carbon 3D Printer Kits 256x256mm" := by
  refine ⟨isGarbage_short, isGarbage_stars, isGarbage_numeric,
    isGarbage_boilerplate, selectTitle_eq_find, extractItem_noTitle,
    ?_, by decide, by decide⟩
  intro bmOf q html cap a rest acc blk hlen hblk hx
  exact extractLoop_cons_noitem bmOf q html cap a rest acc blk hlen hblk hx

/-- Witness for C4 at concrete titles and spans. -/
theorem claim_C4_witness :
    isGarbageTitle "short" = true ∧
    isGarbageTitle "4.2 out of 5 stars" = true ∧
    isGarbageTitle "$1,234.99" = true ∧
    isGarbageTitle "See Sponsored results for more" = true ∧
    extractItem ⟨"q", "c", "t", "l"⟩ "AAAAAAAAA1" blockA ⟨[], [], [], none, none⟩ = none ∧
    extractLoop (fun _ => ⟨[], [], [], none, none⟩) ⟨"q", "c", "t", "l"⟩ blockA 30
        ["AAAAAAAAA1"] [] = [] := by
  refine ⟨claim_C4.1 "short" (by decide),
    claim_C4.2.1 "4.2 out of 5 stars" (by decide),
    claim_C4.2.2.1 "$1,234.99" (by decide),
    claim_C4.2.2.2.1 "See Sponsored results for more" "Sponsored" (by decide) (by decide),
    claim_C4.2.2.2.2.2.1 ⟨"q", "c", "t", "l"⟩ "AAAAAAAAA1" blockA
      ⟨[], [], [], none, none⟩ (by decide), ?_⟩
  rw [claim_C4.2.2.2.2.2.2.1 (fun _ => ⟨[], [], [], none, none⟩) ⟨"q", "c", "t", "l"⟩
    blockA 30 "AAAAAAAAA1" [] [] blockA (by decide) (by decide) (by decide)]
  rfl

/-- C7: price extraction drops the item when the single two-decimal price
pattern finds no capture in the span, or when the parsed value is not
strictly positive; and every capture the pattern can return has the
two-decimal shape. -/
theorem claim_C7 :
    (∀ (q : SearchQuery) (a blk : String) (bm : BlockMatches),
      findPrice blk = none → extractItem q a blk bm = none) ∧
    (∀ (q : SearchQuery) (a blk : String) (bm : BlockMatches) (cap : String),
      findPrice blk = some cap → parseCents cap ≤ 0 → extractItem q a blk bm = none) ∧
    (∀ (blk cap : String), findPrice blk = some cap → priceShape cap = true) :=
  ⟨extractItem_noPrice, extractItem_nonposPrice, findPrice_shape⟩

/-- Witness for C7: a span with no price, a span with price `$0.00`, and a
span with a positive price. -/
theorem claim_C7_witness :
    findPrice "no price in this span at all" = none ∧
    extractItem ⟨"q", "c", "t", "l"⟩ "AAAAAAAAA1" "no price in this span at all"
      (bmOracle "") = none ∧
    findPrice "<span class=\"a-price\"><span>$0.00</span></span>" = some "0.00" ∧
    extractItem ⟨"q", "c", "t", "l"⟩ "AAAAAAAAA1"
      "<span class=\"a-price\"><span>$0.00</span></span>" (bmOracle "") = none ∧
    findPrice blockA = some "19.99" ∧
    priceShape "19.99" = true := by
  refine ⟨by decide,
    claim_C7.1 ⟨"q", "c", "t", "l"⟩ "AAAAAAAAA1" _ (bmOracle "") (by decide),
    by decide,
    claim_C7.2.1 ⟨"q", "c", "t", "l"⟩ "AAAAAAAAA1" _ (bmOracle "") "0.00"
      (by decide) (by decide),
    by decide,
    claim_C7.2.2 blockA "19.99" (by decide)⟩

/-- C9: with a valid admin key, a trigger while the corresponding flag is
set is rejected with HTTP 409, starts no run and changes no state; a run is
only ever started from the idle state, holds its flag while in flight, and
the flag is cleared on every exit path (normal completion, the empty-batch
early return, and a thrown exception); each handler leaves the other
pipeline's flag untouched. -/
theorem claim_C9 :
    (∀ (st : GuardState) (o : JobOutcome), st.scraperRunning = true →
      scrapeTrigger true st o = ⟨409, false, st, st⟩) ∧
    (∀ (st : GuardState) (o : PriceOutcome), st.priceUpdateRunning = true →
      priceTrigger true st o = ⟨409, false, st, st⟩) ∧
    (∀ (adminOk : Bool) (st : GuardState) (o : JobOutcome),
      (scrapeTrigger adminOk st o).startedRun = true →
      st.scraperRunning = false ∧
      (scrapeTrigger adminOk st o).stateAfterResponse.scraperRunning = true ∧
      (scrapeTrigger adminOk st o).finalState.scraperRunning = false) ∧
    (∀ (adminOk : Bool) (st : GuardState) (o : PriceOutcome),
      (priceTrigger adminOk st o).startedRun = true →
      st.priceUpdateRunning = false ∧
      (priceTrigger adminOk st o).stateAfterResponse.priceUpdateRunning = true ∧
      (priceTrigger adminOk st o).finalState.priceUpdateRunning = false) ∧
    (∀ (adminOk : Bool) (st : GuardState) (o : JobOutcome),
      (scrapeTrigger adminOk st o).finalState.priceUpdateRunning = st.priceUpdateRunning) ∧
    (∀ (adminOk : Bool) (st : GuardState) (o : PriceOutcome),
      (priceTrigger adminOk st o).finalState.scraperRunning = st.scraperRunning) := by
  refine ⟨?_, ?_, ?_, ?_, ?_, ?_⟩
  · intro st o h
    unfold scrapeTrigger
    rw [h]
    rfl
  · intro st o h
    unfold priceTrigger
    rw [h]
    rfl
  · intro adminOk st o
    rcases st with ⟨s, p⟩
    cases adminOk <;> cases s <;> cases o <;> simp [scrapeTrigger]
  · intro adminOk st o
    rcases st with ⟨s, p⟩
    cases adminOk <;> cases p <;> cases o <;> simp [priceTrigger]
  · intro adminOk st o
    rcases st with ⟨s, p⟩
    cases adminOk <;> cases s <;> cases o <;> simp [scrapeTrigger]
  · intro adminOk st o
    rcases st with ⟨s, p⟩
    cases adminOk <;> cases p <;> cases o <;> simp [priceTrigger]

/-- Witness for C9 at concrete guard states. -/
theorem claim_C9_witness :
    scrapeTrigger true ⟨true, false⟩ .threw = ⟨409, false, ⟨true, false⟩, ⟨true, false⟩⟩ ∧
    priceTrigger true ⟨false, true⟩ .noProducts
      = ⟨409, false, ⟨false, true⟩, ⟨false, true⟩⟩ ∧
    ((⟨false, false⟩ : GuardState).scraperRunning = false ∧
      (scrapeTrigger true ⟨false, false⟩ .threw).stateAfterResponse.scraperRunning = true ∧
      (scrapeTrigger true ⟨false, false⟩ .threw).finalState.scraperRunning = false) ∧
    (priceTrigger true ⟨false, false⟩ .threw).finalState.scraperRunning = false := by
  refine ⟨claim_C9.1 ⟨true, false⟩ .threw rfl,
    claim_C9.2.1 ⟨false, true⟩ .noProducts rfl,
    claim_C9.2.2.1 true ⟨false, false⟩ .threw (by decide), ?_⟩
  rw [claim_C9.2.2.2.2.2 true ⟨false, false⟩ .threw]

/-! # Storage growth lemmas -/

/-- One query step only ever appends to the stored table. -/
theorem storage_prefix_pq (bmOf : String → BlockMatches) (fetch : SearchQuery → FetchOutcome)
    (insertOk : SearchQuery → List Product → Bool) (cap : Nat) (st : RunState)
    (q : SearchQuery) :
    st.storage <+: (processQuery bmOf fetch insertOk cap st q).storage := by
  unfold processQuery
  rcases fetch q with _ | ⟨ok, html⟩
  · exact List.prefix_refl _
  · dsimp only
    split
    · exact List.prefix_refl _
    · split
      · exact List.prefix_refl _
      · split
        · split
          · exact List.prefix_append _ _
          · exact List.prefix_refl _
        · exact List.prefix_refl _

/-- The query loop only ever appends to the stored table. -/
theorem storage_prefix_fold (bmOf : String → BlockMatches)
    (fetch : SearchQuery → FetchOutcome) (insertOk : SearchQuery → List Product → Bool)
    (cap : Nat) : ∀ (qs : List SearchQuery) (st : RunState),
    st.storage <+: (qs.foldl (processQuery bmOf fetch insertOk cap) st).storage := by
  intro qs
  induction qs with
  | nil => intro st; exact List.prefix_refl _
  | cons q rest ih =>
    intro st
    rw [List.foldl_cons]
    exact (storage_prefix_pq bmOf fetch insertOk cap st q).trans
      (ih (processQuery bmOf fetch insertOk cap st q))

/-- C10: a failure of the initial known-identifier scan does not abort the
run — the run behaves exactly as if the scan had succeeded with the
partially loaded pages — and persistence is always the plain insert: the
stored table only ever grows by appended batches, never by updates, so no
upsert fallback exists.  Concretely, with a scan failure that loaded
nothing, a stored item's identifier is no longer filtered out: the run
completes (status `success`), re-extracts it and appends a second record
with the same identifier next to the stored one. -/
theorem claim_C10 :
    (∀ (bmOf : String → BlockMatches) (fetch : SearchQuery → FetchOutcome)
      (insertOk : SearchQuery → List Product → Bool) (pages : List (List String))
      (storage0 : List Product) (f : Option (List String)) (cap : Nat),
      runLightScrape bmOf fetch insertOk (.failed pages) storage0 f cap
        = runLightScrape bmOf fetch insertOk (.ok pages) storage0 f cap) ∧
    (∀ (bmOf : String → BlockMatches) (fetch : SearchQuery → FetchOutcome)
      (insertOk : SearchQuery → List Product → Bool) (scan : ScanOutcome)
      (storage0 : List Product) (f : Option (List String)) (cap : Nat),
      storage0 <+:
        (runLightScrape bmOf fetch insertOk scan storage0 f cap).finalState.storage) ∧
    (runLightScrape bmOracle fetchA insertAlways (.failed []) [prodK]
      (some ["3d_pen"]) 30).status = "success" ∧
    (runLightScrape bmOracle fetchA insertAlways (.failed []) [prodK]
      (some ["3d_pen"]) 30).finalState.storage
      = [prodK, prodA ⟨"3D+pen", "3d_pen", "3d_pen", "3D Pen"⟩] ∧
    prodK.amazonAsin = (prodA ⟨"3D+pen", "3d_pen", "3d_pen", "3D Pen"⟩).amazonAsin := by
  refine ⟨fun _ _ _ _ _ _ _ => rfl, ?_, ?_, ?_, by decide⟩
  · intro bmOf fetch insertOk scan storage0 f cap
    show storage0 <+: ((selectSearches f SCRAPE_SEARCHES).foldl
      (processQuery bmOf fetch insertOk cap)
      { totalFound := 0, totalSaved := 0, totalSkipped := 0, errorsCount := 0,
        existingAsins := loadExisting scan, storage := storage0 }).storage
    exact storage_prefix_fold bmOf fetch insertOk cap (selectSearches f SCRAPE_SEARCHES)
      { totalFound := 0, totalSaved := 0, totalSkipped := 0, errorsCount := 0,
        existingAsins := loadExisting scan, storage := storage0 }
  · rw [runC10_eval]
  · rw [runC10_eval]

/-! # Error accounting -/

/-- Each query adds a nonnegative amount to the error counter. -/
theorem errors_mono_pq (bmOf : String → BlockMatches) (fetch : SearchQuery → FetchOutcome)
    (insertOk : SearchQuery → List Product → Bool) (cap : Nat) (st : RunState)
    (q : SearchQuery) :
    st.errorsCount ≤ (processQuery bmOf fetch insertOk cap st q).errorsCount := by
  unfold processQuery
  rcases fetch q with _ | ⟨ok, html⟩
  · simp
  · dsimp only
    split
    · simp
    · split
      · simp
      · split
        · split
          · simp
          · simp
        · simp

theorem errorDeltas_length (bmOf : String → BlockMatches)
    (fetch : SearchQuery → FetchOutcome) (insertOk : SearchQuery → List Product → Bool)
    (cap : Nat) : ∀ (qs : List SearchQuery) (st : RunState),
    (errorDeltas bmOf fetch insertOk cap st qs).length = qs.length := by
  intro qs
  induction qs with
  | nil => intro st; rfl
  | cons q rest ih =>
    intro st
    rw [errorDeltas]
    simp only [List.length_cons]
    rw [ih]

/-- The final error counter is the initial one plus the per-query error
increments. -/
theorem errors_eq_sum (bmOf : String → BlockMatches) (fetch : SearchQuery → FetchOutcome)
    (insertOk : SearchQuery → List Product → Bool) (cap : Nat) :
    ∀ (qs : List SearchQuery) (st : RunState),
    (qs.foldl (processQuery bmOf fetch insertOk cap) st).errorsCount
      = st.errorsCount + (errorDeltas bmOf fetch insertOk cap st qs).sum := by
  intro qs
  induction qs with
  | nil => intro st; simp [errorDeltas]
  | cons q rest ih =>
    intro st
    rw [List.foldl_cons, errorDeltas, List.sum_cons, ih]
    have hm := errors_mono_pq bmOf fetch insertOk cap st q
    omega

theorem sum_le_length_of_le_one (l : List Nat) (h : ∀ d ∈ l, d ≤ 1) :
    l.sum ≤ l.length := by
  induction l with
  | nil => simp
  | cons d rest ih =>
    have hd := h d (List.mem_cons_self d rest)
    have := ih (fun x hx => h x (List.mem_cons_of_mem _ hx))
    simp only [List.sum_cons, List.length_cons]
    omega

theorem sum_eq_length_iff_all_one (l : List Nat) (h : ∀ d ∈ l, d ≤ 1) :
    l.sum = l.length ↔ ∀ d ∈ l, d = 1 := by
  induction l with
  | nil => simp
  | cons d rest ih =>
    have hd := h d (List.mem_cons_self d rest)
    have hrest := ih (fun x hx => h x (List.mem_cons_of_mem _ hx))
    have hsle : rest.sum ≤ rest.length :=
      sum_le_length_of_le_one rest (fun x hx => h x (List.mem_cons_of_mem _ hx))
    simp only [List.sum_cons, List.length_cons, List.mem_cons]
    constructor
    · intro hs
      have hdone : d = 1 := by omega
      have : rest.sum = rest.length := by omega
      intro x hx
      rcases hx with rfl | hx
      · exact hdone
      · exact hrest.mp this x hx
    · intro hall
      have hd1 : d = 1 := hall d (Or.inl rfl)
      have : rest.sum = rest.length := hrest.mpr (fun x hx => hall x (Or.inr hx))
      omega

theorem sum_eq_zero_iff_all_zero (l : List Nat) :
    l.sum = 0 ↔ ∀ d ∈ l, d = 0 := by
  induction l with
  | nil => simp
  | cons d rest ih =>
    simp only [List.sum_cons, List.mem_cons]
    constructor
    · intro hs x hx
      rcases hx with rfl | hx
      · omega
      · exact ih.mp (by omega) x hx
    · intro hall
      have := ih.mpr (fun x hx => hall x (Or.inr hx))
      have := hall d (Or.inl rfl)
      omega

theorem computeStatus_failed_iff (e n : Nat) : computeStatus e n = "failed" ↔ e = n := by
  unfold computeStatus
  by_cases h : e = n
  · rw [if_pos h]
    simp [h]
  · rw [if_neg h]
    refine iff_of_false ?_ h
    by_cases h2 : e > 0
    · rw [if_pos h2]; decide
    · rw [if_neg h2]; decide

theorem computeStatus_success_iff (e n : Nat) (hn : 0 < n) :
    computeStatus e n = "success" ↔ e = 0 := by
  unfold computeStatus
  by_cases h : e = n
  · rw [if_pos h]
    refine iff_of_false (by decide) ?_
    omega
  · rw [if_neg h]
    by_cases h2 : e > 0
    · rw [if_pos h2]
      refine iff_of_false (by decide) ?_
      omega
    · rw [if_neg h2]
      simp
      omega

theorem computeStatus_partial_iff (e n : Nat) :
    computeStatus e n = "partial" ↔ (e ≠ n ∧ 0 < e) := by
  unfold computeStatus
  by_cases h : e = n
  · rw [if_pos h]
    refine iff_of_false (by decide) ?_
    simp [h]
  · rw [if_neg h]
    by_cases h2 : e > 0
    · rw [if_pos h2]
      simp [h, h2]
    · rw [if_neg h2]
      refine iff_of_false (by decide) ?_
      simp [h2]

theorem pq_A_insertFail (st : RunState) (q : SearchQuery) (hknown : st.existingAsins = []) :
    processQuery bmOracle fetchA insertNever 30 st q
      = { st with totalFound := st.totalFound + 1, errorsCount := st.errorsCount + 1 } := by
  rw [processQuery_usable bmOracle fetchA insertNever 30 st q pageA rfl blockedBody_pageA]
  dsimp only
  rw [scanAsins_pageA, hknown, queryProducts_pageA_empty]
  simp [insertNever]

theorem deltas_AB_fail :
    errorDeltas bmOracle fetchAB insertNever 30 (initState [] [])
      [⟨"UV+resin+for+3D+printer", "resin", "uv_resin", "UV Resin"⟩,
       ⟨"3D+printer+wash+cure+resin", "resin", "uv_resin", "Wash & Cure Resin"⟩,
       ⟨"3D+pen", "3d_pen", "3d_pen", "3D Pen"⟩] = [2, 2, 2] := by
  rw [errorDeltas, pq_AB_insertFail _ _ rfl]
  rw [errorDeltas, pq_AB_insertFail _ _ rfl]
  rw [errorDeltas, pq_AB_insertFail _ _ rfl]
  rfl

theorem deltas_A_fail :
    errorDeltas bmOracle fetchA insertNever 30 (initState [] [])
      [⟨"UV+resin+for+3D+printer", "resin", "uv_resin", "UV Resin"⟩,
       ⟨"3D+printer+wash+cure+resin", "resin", "uv_resin", "Wash & Cure Resin"⟩,
       ⟨"3D+pen", "3d_pen", "3d_pen", "3D Pen"⟩] = [1, 1, 1] := by
  rw [errorDeltas, pq_A_insertFail _ _ rfl]
  rw [errorDeltas, pq_A_insertFail _ _ rfl]
  rw [errorDeltas, pq_A_insertFail _ _ rfl]
  rfl

/-- C1 (amended): the final status compares the error counter with the
number of selected queries, and a failed batch insert adds the batch size
to the counter.  Provided every query's error increment is at most one —
in particular when every failing batch has exactly one product — the
status is `failed` exactly when every query errored, `success` exactly
when none did, and `partial` exactly when some but not all did. -/
theorem claim_C1_amended (bmOf : String → BlockMatches) (fetch : SearchQuery → FetchOutcome)
    (ins : SearchQuery → List Product → Bool) (cap : Nat) (existing0 : List String)
    (storage0 : List Product) (qs : List SearchQuery) (hne : qs ≠ [])
    (hone : ∀ d ∈ errorDeltas bmOf fetch ins cap (initState existing0 storage0) qs, d ≤ 1) :
    ((runScrapeOn bmOf fetch ins cap existing0 storage0 qs).status = "failed"
      ↔ ∀ d ∈ errorDeltas bmOf fetch ins cap (initState existing0 storage0) qs, d = 1) ∧
    ((runScrapeOn bmOf fetch ins cap existing0 storage0 qs).status = "success"
      ↔ ∀ d ∈ errorDeltas bmOf fetch ins cap (initState existing0 storage0) qs, d = 0) ∧
    ((runScrapeOn bmOf fetch ins cap existing0 storage0 qs).status = "partial"
      ↔ ((∃ d ∈ errorDeltas bmOf fetch ins cap (initState existing0 storage0) qs, d = 1)
        ∧ (∃ d ∈ errorDeltas bmOf fetch ins cap (initState existing0 storage0) qs, d = 0))) := by
  have hstat : (runScrapeOn bmOf fetch ins cap existing0 storage0 qs).status
      = computeStatus
          ((errorDeltas bmOf fetch ins cap (initState existing0 storage0) qs).sum)
          qs.length := by
    show computeStatus
      ((qs.foldl (processQuery bmOf fetch ins cap) (initState existing0 storage0)).errorsCount)
      qs.length = _
    rw [errors_eq_sum]
    show computeStatus
      (0 + (errorDeltas bmOf fetch ins cap (initState existing0 storage0) qs).sum)
      qs.length = _
    rw [Nat.zero_add]
  have hlen : (errorDeltas bmOf fetch ins cap (initState existing0 storage0) qs).length
      = qs.length := errorDeltas_length bmOf fetch ins cap qs _
  have hn : 0 < qs.length := List.length_pos.mpr hne
  refine ⟨?_, ?_, ?_⟩
  · rw [hstat, computeStatus_failed_iff, ← hlen]
    exact sum_eq_length_iff_all_one _ hone
  · rw [hstat, computeStatus_success_iff _ _ hn]
    exact sum_eq_zero_iff_all_zero _
  · rw [hstat, computeStatus_partial_iff]
    constructor
    · rintro ⟨hne2, hpos⟩
      constructor
      · by_contra hno
        push_neg at hno
        have hz : ∀ d ∈ errorDeltas bmOf fetch ins cap (initState existing0 storage0) qs,
            d = 0 := by
          intro d hd
          have h1 := hone d hd
          have h2 := hno d hd
          omega
        have := (sum_eq_zero_iff_all_zero _).mpr hz
        omega
      · by_contra hno
        push_neg at hno
        have ho : ∀ d ∈ errorDeltas bmOf fetch ins cap (initState existing0 storage0) qs,
            d = 1 := by
          intro d hd
          have h1 := hone d hd
          have h2 := hno d hd
          omega
        have := (sum_eq_length_iff_all_one _ hone).mpr ho
        rw [hlen] at this
        exact hne2 this
    · rintro ⟨⟨d1, hd1, hd1e⟩, ⟨d0, hd0, hd0e⟩⟩
      constructor
      · intro heq
        have hall := (sum_eq_length_iff_all_one _ hone).mp (by rw [hlen]; exact heq)
        have := hall d0 hd0
        omega
      · by_contra hz
        push_neg at hz
        have hsum0 : (errorDeltas bmOf fetch ins cap (initState existing0 storage0) qs).sum
            = 0 := by omega
        have hall := (sum_eq_zero_iff_all_zero _).mp hsum0
        have := hall d1 hd1
        omega

/-- Counterexample to C1 as stated: three selected queries, each of whose
two-product batch inserts fails, so every query errored; the error counter
reaches 6 while there are 3 queries, and the persisted status is `partial`,
not the claimed `failed`. -/
theorem claim_C1_counterexample :
    errorDeltas bmOracle fetchAB insertNever 30 (initState [] [])
      (selectSearches (some ["resin", "3d_pen"]) SCRAPE_SEARCHES) = [2, 2, 2] ∧
    (selectSearches (some ["resin", "3d_pen"]) SCRAPE_SEARCHES).length = 3 ∧
    (runLightScrape bmOracle fetchAB insertNever (.ok []) []
      (some ["resin", "3d_pen"]) 30).totalSaved = 0 ∧
    (runLightScrape bmOracle fetchAB insertNever (.ok []) []
      (some ["resin", "3d_pen"]) 30).errorsCount = 6 ∧
    (runLightScrape bmOracle fetchAB insertNever (.ok []) []
      (some ["resin", "3d_pen"]) 30).status = "partial" ∧
    (runLightScrape bmOracle fetchAB insertNever (.ok []) []
      (some ["resin", "3d_pen"]) 30).status ≠ "failed" := by
  have hsel : selectSearches (some ["resin", "3d_pen"]) SCRAPE_SEARCHES
      = [⟨"UV+resin+for+3D+printer", "resin", "uv_resin", "UV Resin"⟩,
         ⟨"3D+printer+wash+cure+resin", "resin", "uv_resin", "Wash & Cure Resin"⟩,
         ⟨"3D+pen", "3d_pen", "3d_pen", "3D Pen"⟩] := by
    simp [selectSearches, SCRAPE_SEARCHES, List.filter, List.contains]
  rw [hsel, runC1_eval, deltas_AB_fail]
  refine ⟨rfl, rfl, rfl, rfl, rfl, by decide⟩

/-- Witness for the amended C1: three queries whose single-product batches
all fail to insert — every query errored by exactly one — give status
`failed`, as the amended rule (and the spec's singleton-batch scenario)
requires. -/
theorem claim_C1_witness :
    ((selectSearches (some ["resin", "3d_pen"]) SCRAPE_SEARCHES) ≠ []) ∧
    (∀ d ∈ errorDeltas bmOracle fetchA insertNever 30 (initState [] [])
      (selectSearches (some ["resin", "3d_pen"]) SCRAPE_SEARCHES), d ≤ 1) ∧
    (runScrapeOn bmOracle fetchA insertNever 30 [] []
      (selectSearches (some ["resin", "3d_pen"]) SCRAPE_SEARCHES)).status = "failed" := by
  have hsel : selectSearches (some ["resin", "3d_pen"]) SCRAPE_SEARCHES
      = [⟨"UV+resin+for+3D+printer", "resin", "uv_resin", "UV Resin"⟩,
         ⟨"3D+printer+wash+cure+resin", "resin", "uv_resin", "Wash & Cure Resin"⟩,
         ⟨"3D+pen", "3d_pen", "3d_pen", "3D Pen"⟩] := by
    simp [selectSearches, SCRAPE_SEARCHES, List.filter, List.contains]
  rw [hsel]
  have hone : ∀ d ∈ errorDeltas bmOracle fetchA insertNever 30 (initState [] [])
      [⟨"UV+resin+for+3D+printer", "resin", "uv_resin", "UV Resin"⟩,
       ⟨"3D+printer+wash+cure+resin", "resin", "uv_resin", "Wash & Cure Resin"⟩,
       ⟨"3D+pen", "3d_pen", "3d_pen", "3D Pen"⟩], d ≤ 1 := by
    rw [deltas_A_fail]
    intro d hd
    fin_cases hd <;> omega
  refine ⟨by decide, hone, ?_⟩
  have h := (claim_C1_amended bmOracle fetchA insertNever 30 [] []
    [⟨"UV+resin+for+3D+printer", "resin", "uv_resin", "UV Resin"⟩,
     ⟨"3D+printer+wash+cure+resin", "resin", "uv_resin", "Wash & Cure Resin"⟩,
     ⟨"3D+pen", "3d_pen", "3d_pen", "3D Pen"⟩] (by decide) hone).1
  rw [h, deltas_A_fail]
  intro d hd
  fin_cases hd <;> omega

/-! # Characterization of `indexOf` by first occurrence -/

theorem not_prefix_of_missing (pat l : List Char) (c : Char) (hc : c ∈ pat)
    (hl : c ∉ l) : ¬ pat <+: l :=
  fun h => hl (h.subset hc)

theorem lt_length_of_prefix_drop (pat l : List Char) (j : Nat)
    (h : pat <+: l.drop j) (hne : pat ≠ []) : j < l.length := by
  by_contra hge
  push_neg at hge
  rw [List.drop_eq_nil_of_le hge] at h
  exact hne (List.prefix_nil.mp h)

/-- If `pat` first occurs at offset `k`, the search from index `i` returns
`i + k`. -/
theorem jsIndexOfAux_eq_of (pat : List Char) : ∀ (l : List Char) (k : Nat),
    pat <+: l.drop k → (∀ j < k, ¬ pat <+: l.drop j) →
    ∀ i, jsIndexOfAux pat l i = (i : Int) + k := by
  intro l
  induction l with
  | nil =>
    intro k hk hmin i
    have hpat : pat = [] := List.prefix_nil.mp (by simpa using hk)
    cases k with
    | zero => subst hpat; simp [jsIndexOfAux]
    | succ m => exact absurd (hpat ▸ List.nil_prefix) (hmin 0 (Nat.succ_pos m))
  | cons c rest ih =>
    intro k hk hmin i
    cases k with
    | zero =>
      have hp : pat.isPrefixOf (c :: rest) = true :=
        List.isPrefixOf_iff_prefix.mpr (by simpa using hk)
      simp [jsIndexOfAux, hp]
    | succ m =>
      have hp : pat.isPrefixOf (c :: rest) = false := by
        cases hx : pat.isPrefixOf (c :: rest) with
        | false => rfl
        | true =>
          exact absurd (List.isPrefixOf_iff_prefix.mp hx)
            (by simpa using hmin 0 (Nat.succ_pos m))
      have hk' : pat <+: rest.drop m := by simpa using hk
      have hmin' : ∀ j < m, ¬ pat <+: rest.drop j := by
        intro j hj
        have := hmin (j + 1) (by omega)
        simpa using this
      have hrec := ih m hk' hmin' (i + 1)
      have hstep : jsIndexOfAux pat (c :: rest) i = jsIndexOfAux pat rest (i + 1) := by
        simp [jsIndexOfAux, hp]
      rw [hstep, hrec]
      push_cast
      ring

/-- If `pat` occurs nowhere, the search returns `-1`. -/
theorem jsIndexOfAux_none_of (pat : List Char) (hne : pat ≠ []) : ∀ (l : List Char),
    (∀ k, ¬ pat <+: l.drop k) → ∀ i, jsIndexOfAux pat l i = -1 := by
  intro l
  induction l with
  | nil =>
    intro h i
    have : pat.isEmpty = false := by
      cases pat with
      | nil => exact absurd rfl hne
      | cons a t => rfl
    simp [jsIndexOfAux, this]
  | cons c rest ih =>
    intro h i
    have hp : pat.isPrefixOf (c :: rest) = false := by
      cases hx : pat.isPrefixOf (c :: rest) with
      | false => rfl
      | true => exact absurd (List.isPrefixOf_iff_prefix.mp hx) (by simpa using h 0)
    have hrec := ih (fun k => by simpa using h (k + 1)) (i + 1)
    simp [jsIndexOfAux, hp, hrec]

/-- `substring` on in-range endpoints, with the end clamped to the length. -/
theorem jsSubstring_clamp (s : String) (a b : Nat) (ha : a ≤ s.length) (hab : a ≤ b) :
    jsSubstring s a b = String.mk ((s.data.drop a).take (min b s.length - a)) := by
  unfold jsSubstring
  dsimp only
  have hA : (min (max (a : Int) 0) (s.length : Int)).toNat = a := by omega
  have hB : (min (max (b : Int) 0) (s.length : Int)).toNat = min b s.length := by omega
  rw [hA, hB]
  have h1 : min a (min b s.length) = a := by omega
  have h2 : max a (min b s.length) = min b s.length := by omega
  rw [h1, h2]

/-- C6 (amended): when an identifier's marker occurs first at offset `i`,
the block cut for it is the byte range from `i` to the next occurrence `j`
of the marker attribute at or after `i + 20`; when no such occurrence
exists the range ends at `i + 5000` clamped to the end of the document —
not at the end of the document itself. -/
theorem claim_C6_amended (html asin : String) (i : Nat)
    (hocc : ("data-asin=\"" ++ asin ++ "\"").data <+: html.data.drop i)
    (hfirst : ∀ j < i, ¬ ("data-asin=\"" ++ asin ++ "\"").data <+: html.data.drop j) :
    (∀ j, i + 20 ≤ j → ("data-asin=\"" : String).data <+: html.data.drop j →
      (∀ j' < j, i + 20 ≤ j' → ¬ ("data-asin=\"" : String).data <+: html.data.drop j') →
      blockFor html asin = some (String.mk ((html.data.drop i).take (j - i)))) ∧
    ((∀ j, i + 20 ≤ j → ¬ ("data-asin=\"" : String).data <+: html.data.drop j) →
      blockFor html asin
        = some (String.mk ((html.data.drop i).take (min (i + 5000) html.length - i)))) := by
  have hmne : ("data-asin=\"" ++ asin ++ "\"").data ≠ [] := by
    rw [show ("data-asin=\"" ++ asin ++ "\"").data
      = 'd' :: ("ata-asin=\"" ++ asin ++ "\"").data from rfl]
    simp
  have hi_lt : i < html.data.length := lt_length_of_prefix_drop _ _ _ hocc hmne
  have hidx : jsIndexOf html ("data-asin=\"" ++ asin ++ "\"") = (0 : Int) + i :=
    jsIndexOfAux_eq_of _ html.data i hocc hfirst 0
  have hile : i ≤ html.length := by
    have : html.length = html.data.length := rfl
    omega
  constructor
  · intro j hj20 hjocc hjfirst
    unfold blockFor
    dsimp only
    rw [hidx, if_neg (show ¬ ((0 : Int) + i = -1) by omega)]
    have ht : ((0 : Int) + i + 20).toNat = i + 20 := by omega
    rw [ht]
    have hocc2 : ("data-asin=\"" : String).data
        <+: (html.data.drop (i + 20)).drop (j - (i + 20)) := by
      rw [List.drop_drop]
      have harith : i + 20 + (j - (i + 20)) = j := by omega
      rw [harith]
      exact hjocc
    have hmin2 : ∀ k < j - (i + 20),
        ¬ ("data-asin=\"" : String).data <+: (html.data.drop (i + 20)).drop k := by
      intro k hk
      rw [List.drop_drop]
      exact hjfirst (i + 20 + k) (by omega) (by omega)
    have hnext : jsIndexOfFrom html "data-asin=\"" (i + 20)
        = ((i + 20 : Nat) : Int) + (((j - (i + 20) : Nat)) : Int) :=
      jsIndexOfAux_eq_of _ _ _ hocc2 hmin2 (i + 20)
    rw [hnext]
    have hj' : ((i + 20 : Nat) : Int) + (((j - (i + 20) : Nat)) : Int) = (j : Int) := by
      omega
    rw [hj']
    rw [if_pos (show (j : Int) > 0 by omega)]
    have hjlt : j < html.data.length :=
      lt_length_of_prefix_drop _ _ _ hjocc (by decide)
    have h0i : (0 : Int) + (i : Int) = ((i : Nat) : Int) := by omega
    rw [h0i, jsSubstring_clamp html i j hile (by omega)]
    have hminj : min j html.length = j := by
      have : html.length = html.data.length := rfl
      omega
    rw [hminj]
  · intro hnone
    unfold blockFor
    dsimp only
    rw [hidx, if_neg (show ¬ ((0 : Int) + i = -1) by omega)]
    have ht : ((0 : Int) + i + 20).toNat = i + 20 := by omega
    rw [ht]
    have hnext : jsIndexOfFrom html "data-asin=\"" (i + 20) = -1 := by
      refine jsIndexOfAux_none_of _ (by decide) _ ?_ (i + 20)
      intro k
      rw [List.drop_drop]
      exact hnone (i + 20 + k) (by omega)
    rw [hnext]
    rw [if_neg (show ¬ ((-1 : Int) > 0) by omega)]
    have h1 : (0 : Int) + (i : Int) = ((i : Nat) : Int) := by omega
    rw [h1]
    have h2 : (i : Int) + 5000 = (((i + 5000 : Nat)) : Int) := by
      push_cast
      ring
    rw [h2, jsSubstring_clamp html i (i + 5000) hile (by omega)]

/-- Witness for the amended C6 on a small two-marker document: the block of
the first identifier runs from its marker to the next marker occurrence at
offset 70, which is exactly `blockA`. -/
theorem claim_C6_witness :
    blockFor (blockA ++ blockB) "AAAAAAAAA1"
      = some (String.mk (((blockA ++ blockB).data.drop 0).take (70 - 0))) ∧
    String.mk (((blockA ++ blockB).data.drop 0).take (70 - 0)) = blockA := by
  refine ⟨?_, by decide⟩
  exact (claim_C6_amended (blockA ++ blockB) "AAAAAAAAA1" 0 (by decide)
    (fun j hj => absurd hj (Nat.not_lt_zero j))).1 70 (by omega) (by decide) (by decide)

/-- Counterexample to C6 as stated: on a document whose single marker is
followed by 6000 further characters, the block cut for the last identifier
is 5000 characters long, not the 6022-character range to the end of the
document. -/
theorem claim_C6_counterexample :
    blockFor html6 "AAAAAAAAA1" = some blk6 ∧
    blk6.length = 5000 ∧
    html6.length = 6022 ∧
    blk6 ≠ String.mk (html6.data.drop 0) := by
  have hdata : html6.data = ("data-asin=\"AAAAAAAAA1\"" : String).data ++ padL 6000 := rfl
  have hdl : html6.data.length = 6022 := by
    rw [hdata, List.length_append]
    have h22 : ("data-asin=\"AAAAAAAAA1\"" : String).data.length = 22 := by decide
    have hpl : (padL 6000).length = 6000 := by
      simp only [padL, List.length_replicate]
    omega
  have h6022 : html6.length = 6022 := hdl
  have hocc : ("data-asin=\"" ++ "AAAAAAAAA1" ++ "\"").data <+: html6.data.drop 0 := by
    rw [List.drop_zero, hdata]
    rw [show ("data-asin=\"" ++ "AAAAAAAAA1" ++ "\"").data
      = ("data-asin=\"AAAAAAAAA1\"" : String).data from rfl]
    exact List.prefix_append _ _
  have hidx : jsIndexOf html6 ("data-asin=\"" ++ "AAAAAAAAA1" ++ "\"") = (0 : Int) + 0 :=
    jsIndexOfAux_eq_of _ html6.data 0 hocc (fun j hj => absurd hj (Nat.not_lt_zero j)) 0
  have hd20 : html6.data.drop 20 = '1' :: '"' :: padL 6000 := by
    rw [hdata]
    rfl
  have hnext : jsIndexOfFrom html6 "data-asin=\"" 20 = -1 := by
    refine jsIndexOfAux_none_of _ (by decide) _ ?_ 20
    intro k
    rw [hd20]
    refine not_prefix_of_missing _ _ 'd' (by decide) ?_
    intro hmem
    have hmem2 : 'd' ∈ '1' :: '"' :: padL 6000 := List.drop_subset _ _ hmem
    simp only [List.mem_cons, padL, List.mem_replicate] at hmem2
    rcases hmem2 with h | h | ⟨-, h⟩ <;> exact absurd h (by decide)
  have hblock : blockFor html6 "AAAAAAAAA1" = some blk6 := by
    unfold blockFor
    dsimp only
    rw [hidx, if_neg (show ¬ ((0 : Int) + 0 = -1) by omega)]
    rw [show (((0 : Int) + 0 + 20)).toNat = 20 from by omega]
    rw [hnext, if_neg (show ¬ ((-1 : Int) > 0) by omega)]
    rw [show ((0 : Int) + 0) = (0 : Int) from by omega]
    rfl
  have hblk6 : blk6 = String.mk ((html6.data.drop 0).take (min 5000 html6.length - 0)) :=
    jsSubstring_clamp html6 0 5000 (by omega) (by omega)
  have hlen6 : blk6.length = 5000 := by
    rw [hblk6]
    show ((html6.data.drop 0).take (min 5000 html6.length - 0)).length = 5000
    rw [List.length_take, List.drop_zero, h6022]
    omega
  refine ⟨hblock, hlen6, h6022, ?_⟩
  intro heq
  have hlenEq := congrArg String.length heq
  rw [hlen6] at hlenEq
  have : (String.mk (html6.data.drop 0)).length = 6022 := by
    show (html6.data.drop 0).length = 6022
    rw [List.drop_zero]
    exact hdl
  rw [this] at hlenEq
  exact absurd hlenEq (by decide)

/-! # Set and deduplication lemmas -/

/-- `List.contains` on strings decides membership. -/
theorem contains_iff_mem (l : List String) (a : String) : l.contains a = true ↔ a ∈ l := by
  simp [List.contains]

/-- Membership after a `Set.add`. -/
theorem mem_setAdd_iff (s : List String) (a b : String) :
    b ∈ setAdd s a ↔ b ∈ s ∨ b = a := by
  unfold setAdd
  by_cases h : s.contains a = true
  · rw [if_pos h]
    constructor
    · exact Or.inl
    · rintro (hb | rfl)
      · exact hb
      · exact (contains_iff_mem s b).mp h
  · rw [if_neg h]
    simp

/-- Membership after folding a product batch into the known set. -/
theorem mem_foldl_setAdd (ps : List Product) : ∀ (s : List String) (b : String),
    b ∈ ps.foldl (fun s p => setAdd s p.amazonAsin) s
      ↔ b ∈ s ∨ b ∈ ps.map (fun p => p.amazonAsin) := by
  induction ps with
  | nil => intro s b; simp
  | cons p t ih =>
    intro s b
    rw [List.foldl_cons, ih, mem_setAdd_iff]
    simp [List.mem_cons]
    tauto

/-- The `Set`-style dedup fold produces a duplicate-free list. -/
theorem dedupFold_nodup : ∀ (l acc : List String), acc.Nodup →
    (l.foldl (fun acc a => if acc.contains a then acc else acc ++ [a]) acc).Nodup := by
  intro l
  induction l with
  | nil => intro acc h; simpa using h
  | cons a t ih =>
    intro acc h
    rw [List.foldl_cons]
    by_cases hc : acc.contains a = true
    · rw [if_pos hc]
      exact ih acc h
    · rw [if_neg hc]
      have ha : a ∉ acc := fun hm => hc ((contains_iff_mem acc a).mpr hm)
      refine ih _ (List.Nodup.append h (List.nodup_singleton a) ?_)
      intro x hx1 hx2
      have hxa : x = a := by simpa using hx2
      subst hxa
      exact ha hx1

/-- The captured-identifier list of a page has no duplicates (the `Set` of
line 466). -/
theorem scanAsins_nodup (html : String) : (scanAsins html).Nodup := by
  unfold scanAsins
  exact dedupFold_nodup _ _ List.nodup_nil

/-! # Uniqueness through the extraction loop -/

/-- When the listed identifiers are distinct and fresh for the accumulator,
the loop's output records carry pairwise distinct identifiers. -/
theorem extractLoop_asins_nodup (bmOf : String → BlockMatches) (q : SearchQuery)
    (html : String) (cap : Nat) : ∀ (asins : List String) (acc : List Product),
    asins.Nodup → (acc.map (fun p => p.amazonAsin)).Nodup →
    (∀ p ∈ acc, p.amazonAsin ∉ asins) →
    ((extractLoop bmOf q html cap asins acc).map (fun p => p.amazonAsin)).Nodup := by
  intro asins
  induction asins with
  | nil => intro acc _ hacc _; rw [extractLoop_nil]; exact hacc
  | cons a rest ih =>
    intro acc hnd hacc hfresh
    by_cases hlen : acc.length ≥ cap
    · rw [extractLoop_stop _ _ _ _ _ _ _ hlen]; exact hacc
    · rcases hblk : blockFor html a with _ | blk
      · rw [extractLoop_cons_noblock _ _ _ _ _ _ _ hlen hblk]
        exact ih acc hnd.of_cons hacc
          (fun p hp hm => hfresh p hp (List.mem_cons_of_mem _ hm))
      · rcases hx : extractItem q a blk (bmOf blk) with _ | p'
        · rw [extractLoop_cons_noitem _ _ _ _ _ _ _ _ hlen hblk hx]
          exact ih acc hnd.of_cons hacc
            (fun p hp hm => hfresh p hp (List.mem_cons_of_mem _ hm))
        · rw [extractLoop_cons_some _ _ _ _ _ _ _ _ _ hlen hblk hx]
          have hpa : p'.amazonAsin = a := extractItem_asin _ _ _ _ _ hx
          refine ih (acc ++ [p']) hnd.of_cons ?_ ?_
          · rw [List.map_append]
            refine List.Nodup.append hacc (by simp) ?_
            intro x hx1 hx2
            rcases List.mem_map.mp hx1 with ⟨p0, hp0, he⟩
            have hxe : x = p'.amazonAsin := by simpa using hx2
            refine hfresh p0 hp0 ?_
            rw [he, hxe, hpa]
            exact List.mem_cons_self a rest
          · intro p hp hm
            rcases List.mem_append.mp hp with hp1 | hp2
            · exact hfresh p hp1 (List.mem_cons_of_mem _ hm)
            · have hpp : p = p' := by simpa using hp2
              subst hpp
              rw [hpa] at hm
              exact (List.nodup_cons.mp hnd).1 hm

/-- A query's candidate records carry pairwise distinct identifiers. -/
theorem queryProducts_asins_nodup (bmOf : String → BlockMatches) (q : SearchQuery)
    (html : String) (cap : Nat) (known : List String) :
    ((queryProducts bmOf q html cap known).map (fun p => p.amazonAsin)).Nodup := by
  unfold queryProducts
  exact extractLoop_asins_nodup bmOf q html cap _ []
    ((scanAsins_nodup html).filter _) (by simp) (by simp)

/-- A query's candidate records never carry an identifier that was in the
known set when the query started (lines 471-474). -/
theorem queryProducts_not_known (bmOf : String → BlockMatches) (q : SearchQuery)
    (html : String) (cap : Nat) (known : List String) (p : Product)
    (hp : p ∈ queryProducts bmOf q html cap known) : p.amazonAsin ∉ known := by
  have hp' : p ∈ extractLoop bmOf q html cap
      ((scanAsins html).filter (fun a => !known.contains a)) [] := hp
  rcases extractLoop_mem bmOf q html cap _ _ p hp' with h0 | ⟨a, ha, blk, hblk, hx⟩
  · exact absurd h0 (List.not_mem_nil p)
  · rw [extractItem_asin _ _ _ _ _ hx]
    intro hmem
    have hfilter := List.of_mem_filter ha
    rw [(contains_iff_mem known a).mpr hmem] at hfilter
    simp at hfilter

/-! # Shape of one query step on a usable page -/

/-- A usable page with a nonempty candidate batch and a successful insert:
all counters advance, the batch is appended to storage and its identifiers
join the known set. -/
theorem pq_usable_insertOk (bmOf : String → BlockMatches) (fetch : SearchQuery → FetchOutcome)
    (insertOk : SearchQuery → List Product → Bool) (cap : Nat) (st : RunState)
    (q : SearchQuery) (html : String) (hf : fetch q = .got true html)
    (hb : blockedBody html = false)
    (hpos : 0 < (queryProducts bmOf q html cap st.existingAsins).length)
    (hins : insertOk q (queryProducts bmOf q html cap st.existingAsins) = true) :
    processQuery bmOf fetch insertOk cap st q
      = { st with
          totalSkipped := st.totalSkipped + ((scanAsins html).length
            - ((scanAsins html).filter (fun a => !st.existingAsins.contains a)).length),
          totalFound := st.totalFound + (queryProducts bmOf q html cap st.existingAsins).length,
          totalSaved := st.totalSaved + (queryProducts bmOf q html cap st.existingAsins).length,
          existingAsins := (queryProducts bmOf q html cap st.existingAsins).foldl
            (fun s p => setAdd s p.amazonAsin) st.existingAsins,
          storage := st.storage ++ queryProducts bmOf q html cap st.existingAsins } := by
  rw [processQuery_usable _ _ _ _ _ _ _ hf hb]
  dsimp only
  rw [if_pos hpos, if_pos hins]

/-- A usable page with a nonempty candidate batch whose insert fails: the
error counter grows by the batch size, storage and the known set do not
change. -/
theorem pq_usable_insertFail (bmOf : String → BlockMatches)
    (fetch : SearchQuery → FetchOutcome) (insertOk : SearchQuery → List Product → Bool)
    (cap : Nat) (st : RunState) (q : SearchQuery) (html : String)
    (hf : fetch q = .got true html) (hb : blockedBody html = false)
    (hpos : 0 < (queryProducts bmOf q html cap st.existingAsins).length)
    (hneg : insertOk q (queryProducts bmOf q html cap st.existingAsins) = false) :
    processQuery bmOf fetch insertOk cap st q
      = { st with
          totalSkipped := st.totalSkipped + ((scanAsins html).length
            - ((scanAsins html).filter (fun a => !st.existingAsins.contains a)).length),
          totalFound := st.totalFound + (queryProducts bmOf q html cap st.existingAsins).length,
          errorsCount := st.errorsCount
            + (queryProducts bmOf q html cap st.existingAsins).length } := by
  rw [processQuery_usable _ _ _ _ _ _ _ hf hb]
  dsimp only
  rw [if_pos hpos, if_neg (by simp [hneg])]

/-- A usable page with an empty candidate batch: only the skip counter (and
vacuously the found counter) move. -/
theorem pq_usable_noProducts (bmOf : String → BlockMatches)
    (fetch : SearchQuery → FetchOutcome) (insertOk : SearchQuery → List Product → Bool)
    (cap : Nat) (st : RunState) (q : SearchQuery) (html : String)
    (hf : fetch q = .got true html) (hb : blockedBody html = false)
    (hnp : ¬ 0 < (queryProducts bmOf q html cap st.existingAsins).length) :
    processQuery bmOf fetch insertOk cap st q
      = { st with
          totalSkipped := st.totalSkipped + ((scanAsins html).length
            - ((scanAsins html).filter (fun a => !st.existingAsins.contains a)).length),
          totalFound := st.totalFound
            + (queryProducts bmOf q html cap st.existingAsins).length } := by
  rw [processQuery_usable _ _ _ _ _ _ _ hf hb]
  dsimp only
  rw [if_neg hnp]

/-- Every query step either leaves storage, the known set and the saved
counter unchanged, or appends a nonempty successfully inserted batch and
extends the known set with its identifiers. -/
theorem pq_cases (bmOf : String → BlockMatches) (fetch : SearchQuery → FetchOutcome)
    (insertOk : SearchQuery → List Product → Bool) (cap : Nat) (st : RunState)
    (q : SearchQuery) :
    ((processQuery bmOf fetch insertOk cap st q).existingAsins = st.existingAsins ∧
     (processQuery bmOf fetch insertOk cap st q).storage = st.storage ∧
     (processQuery bmOf fetch insertOk cap st q).totalSaved = st.totalSaved) ∨
    (∃ html, fetch q = .got true html ∧ blockedBody html = false ∧
      0 < (queryProducts bmOf q html cap st.existingAsins).length ∧
      insertOk q (queryProducts bmOf q html cap st.existingAsins) = true ∧
      (processQuery bmOf fetch insertOk cap st q).existingAsins
        = (queryProducts bmOf q html cap st.existingAsins).foldl
            (fun s p => setAdd s p.amazonAsin) st.existingAsins ∧
      (processQuery bmOf fetch insertOk cap st q).storage
        = st.storage ++ queryProducts bmOf q html cap st.existingAsins ∧
      (processQuery bmOf fetch insertOk cap st q).totalSaved
        = st.totalSaved + (queryProducts bmOf q html cap st.existingAsins).length) := by
  rcases hf : fetch q with _ | ⟨ok, html⟩
  · rw [processQuery_threw _ _ _ _ _ _ hf]
    exact Or.inl ⟨rfl, rfl, rfl⟩
  · cases ok with
    | false =>
      rw [processQuery_httpError _ _ _ _ _ _ _ hf]
      exact Or.inl ⟨rfl, rfl, rfl⟩
    | true =>
      cases hb : blockedBody html with
      | true =>
        rw [processQuery_blocked _ _ _ _ _ _ _ hf hb]
        exact Or.inl ⟨rfl, rfl, rfl⟩
      | false =>
        by_cases hpos : 0 < (queryProducts bmOf q html cap st.existingAsins).length
        · by_cases hins : insertOk q (queryProducts bmOf q html cap st.existingAsins) = true
          · rw [pq_usable_insertOk _ _ _ _ _ _ _ hf hb hpos hins]
            exact Or.inr ⟨html, hf.symm ▸ rfl, hb, hpos, hins, rfl, rfl, rfl⟩
          · have hneg : insertOk q (queryProducts bmOf q html cap st.existingAsins) = false :=
              Bool.eq_false_iff.mpr hins
            rw [pq_usable_insertFail _ _ _ _ _ _ _ hf hb hpos hneg]
            exact Or.inl ⟨rfl, rfl, rfl⟩
        · rw [pq_usable_noProducts _ _ _ _ _ _ _ hf hb hpos]
          exact Or.inl ⟨rfl, rfl, rfl⟩

/-- The known set only grows across a query step. -/
theorem existing_mono_pq (bmOf : String → BlockMatches) (fetch : SearchQuery → FetchOutcome)
    (insertOk : SearchQuery → List Product → Bool) (cap : Nat) (st : RunState)
    (q : SearchQuery) (b : String) (hb : b ∈ st.existingAsins) :
    b ∈ (processQuery bmOf fetch insertOk cap st q).existingAsins := by
  rcases pq_cases bmOf fetch insertOk cap st q with ⟨he, _, _⟩ | ⟨html, _, _, _, _, he, _, _⟩
  · rw [he]; exact hb
  · rw [he]; exact (mem_foldl_setAdd _ _ _).mpr (Or.inl hb)

/-- A stored identifier stays stored across the whole query loop. -/
theorem mem_storage_fold_mono (bmOf : String → BlockMatches)
    (fetch : SearchQuery → FetchOutcome) (insertOk : SearchQuery → List Product → Bool)
    (cap : Nat) (qs : List SearchQuery) (st : RunState) (b : String)
    (hb : b ∈ st.storage.map (fun p => p.amazonAsin)) :
    b ∈ (qs.foldl (processQuery bmOf fetch insertOk cap) st).storage.map
      (fun p => p.amazonAsin) := by
  rcases List.mem_map.mp hb with ⟨p0, hp0, he⟩
  exact List.mem_map.mpr
    ⟨p0, (storage_prefix_fold bmOf fetch insertOk cap qs st).subset hp0, he⟩

/-- The known set tracks the stored identifiers exactly across a query
step, whenever it did before the step. -/
theorem J_preserved (bmOf : String → BlockMatches) (fetch : SearchQuery → FetchOutcome)
    (insertOk : SearchQuery → List Product → Bool) (cap : Nat) (st : RunState)
    (q : SearchQuery)
    (hJ : ∀ b, b ∈ st.existingAsins ↔ b ∈ st.storage.map (fun p => p.amazonAsin)) :
    ∀ b, b ∈ (processQuery bmOf fetch insertOk cap st q).existingAsins
      ↔ b ∈ (processQuery bmOf fetch insertOk cap st q).storage.map
          (fun p => p.amazonAsin) := by
  intro b
  rcases pq_cases bmOf fetch insertOk cap st q with ⟨he, hs, _⟩ |
    ⟨html, hf, hb2, hpos, hins, he, hs, _⟩
  · rw [he, hs]; exact hJ b
  · rw [he, hs, mem_foldl_setAdd, List.map_append, List.mem_append]
    constructor
    · rintro (h1 | h2)
      · exact Or.inl ((hJ b).mp h1)
      · exact Or.inr h2
    · rintro (h1 | h2)
      · exact Or.inl ((hJ b).mpr h1)
      · exact Or.inr h2

/-! # Run-level invariants for C5 -/

/-- One query step preserves the storage-closure and pair-uniqueness
invariant. -/
theorem pq_pairs_invariant (bmOf : String → BlockMatches)
    (fetch : SearchQuery → FetchOutcome) (insertOk : SearchQuery → List Product → Bool)
    (cap : Nat) (st : RunState) (q : SearchQuery)
    (hsub : ∀ p ∈ st.storage, p.amazonAsin ∈ st.existingAsins)
    (hnd : (st.storage.map (fun p => (p.amazonAsin, p.locale))).Nodup) :
    (∀ p ∈ (processQuery bmOf fetch insertOk cap st q).storage,
        p.amazonAsin ∈ (processQuery bmOf fetch insertOk cap st q).existingAsins) ∧
    ((processQuery bmOf fetch insertOk cap st q).storage.map
        (fun p => (p.amazonAsin, p.locale))).Nodup := by
  rcases pq_cases bmOf fetch insertOk cap st q with ⟨he, hs, _⟩ |
    ⟨html, hf, hb2, hpos, hins, he, hs, _⟩
  · rw [he, hs]; exact ⟨hsub, hnd⟩
  · rw [he, hs]
    constructor
    · intro p hp
      rcases List.mem_append.mp hp with h1 | h2
      · exact (mem_foldl_setAdd _ _ _).mpr (Or.inl (hsub p h1))
      · exact (mem_foldl_setAdd _ _ _).mpr (Or.inr (List.mem_map.mpr ⟨p, h2, rfl⟩))
    · rw [List.map_append]
      refine List.Nodup.append hnd ?_ ?_
      · have h1 : ((queryProducts bmOf q html cap st.existingAsins).map
            (fun p => p.amazonAsin)).Nodup := queryProducts_asins_nodup bmOf q html cap _
        have h2 : (((queryProducts bmOf q html cap st.existingAsins).map
            (fun p => (p.amazonAsin, p.locale))).map Prod.fst).Nodup := by
          rw [List.map_map]
          exact h1
        exact h2.of_map
      · intro x hx1 hx2
        rcases List.mem_map.mp hx1 with ⟨p1, hp1, he1⟩
        rcases List.mem_map.mp hx2 with ⟨p2, hp2, he2⟩
        have hfst : p2.amazonAsin = p1.amazonAsin := by
          have := congrArg Prod.fst (he2.trans he1.symm)
          simpa using this
        have hnotk : p2.amazonAsin ∉ st.existingAsins :=
          queryProducts_not_known bmOf q html cap st.existingAsins p2 hp2
        refine hnotk ?_
        rw [hfst]
        exact hsub p1 hp1

/-- The whole query loop preserves pair-uniqueness of the stored catalog. -/
theorem fold_pairs_invariant (bmOf : String → BlockMatches)
    (fetch : SearchQuery → FetchOutcome) (insertOk : SearchQuery → List Product → Bool)
    (cap : Nat) : ∀ (qs : List SearchQuery) (st : RunState),
    (∀ p ∈ st.storage, p.amazonAsin ∈ st.existingAsins) →
    (st.storage.map (fun p => (p.amazonAsin, p.locale))).Nodup →
    ((qs.foldl (processQuery bmOf fetch insertOk cap) st).storage.map
      (fun p => (p.amazonAsin, p.locale))).Nodup := by
  intro qs
  induction qs with
  | nil => intro st _ hnd; exact hnd
  | cons q rest ih =>
    intro st hsub hnd
    rw [List.foldl_cons]
    obtain ⟨hsub', hnd'⟩ := pq_pairs_invariant bmOf fetch insertOk cap st q hsub hnd
    exact ih _ hsub' hnd'

/-- `finalState` of a run is the query-loop fold. -/
theorem runScrapeOn_finalState (bmOf : String → BlockMatches)
    (fetch : SearchQuery → FetchOutcome) (insertOk : SearchQuery → List Product → Bool)
    (cap : Nat) (e0 : List String) (s0 : List Product) (qs : List SearchQuery) :
    (runScrapeOn bmOf fetch insertOk cap e0 s0 qs).finalState
      = qs.foldl (processQuery bmOf fetch insertOk cap) (initState e0 s0) := rfl

/-- The persisted saved counter of a run is the fold's saved counter. -/
theorem runScrapeOn_totalSaved (bmOf : String → BlockMatches)
    (fetch : SearchQuery → FetchOutcome) (insertOk : SearchQuery → List Product → Bool)
    (cap : Nat) (e0 : List String) (s0 : List Product) (qs : List SearchQuery) :
    (runScrapeOn bmOf fetch insertOk cap e0 s0 qs).totalSaved
      = (qs.foldl (processQuery bmOf fetch insertOk cap) (initState e0 s0)).totalSaved := rfl

/-- C5 (amended): provided the known set covers the stored identifiers at
the start of a run and the stored (identifier, locale) pairs are then
pairwise distinct, the run preserves both: the catalog stays
pair-duplicate-free.  But re-discovery of a stored identifier does not
update the stored record: the pipeline filters the identifier out before
extraction and the stored table only ever grows by appended batches of
fresh identifiers (the prefix conjunct) — uniqueness holds by skipping,
not by updating. -/
theorem claim_C5_amended (bmOf : String → BlockMatches) (fetch : SearchQuery → FetchOutcome)
    (insertOk : SearchQuery → List Product → Bool) (cap : Nat)
    (existing0 : List String) (storage0 : List Product) (qs : List SearchQuery)
    (hsub : ∀ p ∈ storage0, p.amazonAsin ∈ existing0)
    (hnd : (storage0.map (fun p => (p.amazonAsin, p.locale))).Nodup) :
    storage0 <+:
      (runScrapeOn bmOf fetch insertOk cap existing0 storage0 qs).finalState.storage ∧
    ((runScrapeOn bmOf fetch insertOk cap existing0 storage0 qs).finalState.storage.map
      (fun p => (p.amazonAsin, p.locale))).Nodup := by
  constructor
  · rw [runScrapeOn_finalState]
    exact storage_prefix_fold bmOf fetch insertOk cap qs (initState existing0 storage0)
  · rw [runScrapeOn_finalState]
    exact fold_pairs_invariant bmOf fetch insertOk cap qs (initState existing0 storage0)
      hsub hnd

/-- Witness for the amended C5: a run over one query starting from a
one-item catalog whose identifier is known keeps the catalog a prefix of
the final storage, with distinct (identifier, locale) pairs. -/
theorem claim_C5_witness :
    [prodK] <+:
      (runScrapeOn bmOracle fetchA insertAlways 30 ["AAAAAAAAA1"] [prodK]
        [⟨"3D+pen", "3d_pen", "3d_pen", "3D Pen"⟩]).finalState.storage ∧
    ((runScrapeOn bmOracle fetchA insertAlways 30 ["AAAAAAAAA1"] [prodK]
        [⟨"3D+pen", "3d_pen", "3d_pen", "3D Pen"⟩]).finalState.storage.map
      (fun p => (p.amazonAsin, p.locale))).Nodup :=
  claim_C5_amended bmOracle fetchA insertAlways 30 ["AAAAAAAAA1"] [prodK]
    [⟨"3D+pen", "3d_pen", "3d_pen", "3D Pen"⟩] (by decide) (by decide)

/-- Counterexample to C5 as stated: a stored identifier re-discovered on a
usable page at a newer price is skipped, not updated — the run ends with
the stored table unchanged, still holding the old price. -/
theorem claim_C5_counterexample :
    "AAAAAAAAA1" ∈ scanAsins pageA ∧
    blockFor pageA "AAAAAAAAA1" = some blockA ∧
    extractItem ⟨"3D+pen", "3d_pen", "3d_pen", "3D Pen"⟩ "AAAAAAAAA1" blockA
        (bmOracle blockA)
      = some (prodA ⟨"3D+pen", "3d_pen", "3d_pen", "3D Pen"⟩) ∧
    (prodA ⟨"3D+pen", "3d_pen", "3d_pen", "3D Pen"⟩).priceCents = 1999 ∧
    prodK.amazonAsin = "AAAAAAAAA1" ∧ prodK.priceCents = 1000 ∧
    (runLightScrape bmOracle fetchA insertAlways (.ok [["AAAAAAAAA1"]]) [prodK]
        (some ["3d_pen"]) 30).finalState.storage = [prodK] := by
  refine ⟨?_, blockFor_pageA_A, extractItem_blockA _, by decide, by decide, by decide, ?_⟩
  · rw [scanAsins_pageA]
    exact List.mem_singleton.mpr rfl
  · rw [runC5_eval]

/-! # Idempotence machinery for C8 -/

/-- When the capacity bound cannot be hit, every listed identifier whose
block yields a record contributes that record to the loop's output. -/
theorem extractLoop_covers (bmOf : String → BlockMatches) (q : SearchQuery) (html : String)
    (cap : Nat) : ∀ (asins : List String) (acc : List Product),
    acc.length + asins.length ≤ cap →
    ∀ a ∈ asins, ∀ blk p, blockFor html a = some blk →
      extractItem q a blk (bmOf blk) = some p →
      p ∈ extractLoop bmOf q html cap asins acc := by
  intro asins
  induction asins with
  | nil => intro acc _ a ha; exact absurd ha (List.not_mem_nil a)
  | cons a0 rest ih =>
    intro acc hlen a ha blk p hblk hx
    have hstop : ¬ acc.length ≥ cap := by
      simp only [List.length_cons] at hlen
      omega
    rcases List.mem_cons.mp ha with rfl | harest
    · rw [extractLoop_cons_some _ _ _ _ _ _ _ _ _ hstop hblk hx]
      exact extractLoop_acc_sub bmOf q html cap rest (acc ++ [p]) p
        (List.mem_append.mpr (Or.inr (List.mem_singleton.mpr rfl)))
    · rcases hblk0 : blockFor html a0 with _ | blk0
      · rw [extractLoop_cons_noblock _ _ _ _ _ _ _ hstop hblk0]
        refine ih acc ?_ a harest blk p hblk hx
        simp only [List.length_cons] at hlen
        omega
      · rcases hx0 : extractItem q a0 blk0 (bmOf blk0) with _ | p0
        · rw [extractLoop_cons_noitem _ _ _ _ _ _ _ _ hstop hblk0 hx0]
          refine ih acc ?_ a harest blk p hblk hx
          simp only [List.length_cons] at hlen
          omega
        · rw [extractLoop_cons_some _ _ _ _ _ _ _ _ _ hstop hblk0 hx0]
          refine ih (acc ++ [p0]) ?_ a harest blk p hblk hx
          simp only [List.length_cons, List.length_append, List.length_nil] at hlen ⊢
          omega

/-- Along a run with always-successful inserts, small-enough pages and a
known set that tracks storage, every identifier that extracts a record on
some selected query's page ends up stored. -/
theorem fold_saves_cover (bmOf : String → BlockMatches) (fetch : SearchQuery → FetchOutcome)
    (insertOk : SearchQuery → List Product → Bool) (cap : Nat)
    (hins : ∀ q ps, insertOk q ps = true) : ∀ (qs : List SearchQuery) (st : RunState),
    (∀ q ∈ qs, ∀ html, fetch q = .got true html → (scanAsins html).length ≤ cap) →
    (∀ b, b ∈ st.existingAsins ↔ b ∈ st.storage.map (fun p => p.amazonAsin)) →
    ∀ q ∈ qs, ∀ html, fetch q = .got true html → blockedBody html = false →
    ∀ a ∈ scanAsins html, ∀ blk p, blockFor html a = some blk →
      extractItem q a blk (bmOf blk) = some p →
      a ∈ (qs.foldl (processQuery bmOf fetch insertOk cap) st).storage.map
        (fun p => p.amazonAsin) := by
  intro qs
  induction qs with
  | nil => intro st _ _ q hq; exact absurd hq (List.not_mem_nil q)
  | cons q0 rest ih =>
    intro st hcap hJ q hq html hf hb a ha blk p hblk hx
    rw [List.foldl_cons]
    rcases List.mem_cons.mp hq with rfl | hqrest
    · by_cases hk : a ∈ st.existingAsins
      · have hstor : a ∈ st.storage.map (fun p => p.amazonAsin) := (hJ a).mp hk
        refine mem_storage_fold_mono bmOf fetch insertOk cap rest _ a ?_
        rcases List.mem_map.mp hstor with ⟨p0, hp0, he⟩
        exact List.mem_map.mpr
          ⟨p0, (storage_prefix_pq bmOf fetch insertOk cap st q).subset hp0, he⟩
      · have hcontains : st.existingAsins.contains a = false := by
          cases hc : st.existingAsins.contains a with
          | false => rfl
          | true => exact absurd ((contains_iff_mem _ _).mp hc) hk
        have hafilter : a ∈ (scanAsins html).filter
            (fun x => !st.existingAsins.contains x) := by
          refine List.mem_filter.mpr ⟨ha, ?_⟩
          rw [hcontains]
          rfl
        have hlenf : ((scanAsins html).filter
            (fun x => !st.existingAsins.contains x)).length ≤ cap :=
          le_trans (List.length_filter_le _ _) (hcap q (List.mem_cons_self q rest) html hf)
        have hpprod : p ∈ queryProducts bmOf q html cap st.existingAsins :=
          extractLoop_covers bmOf q html cap _ [] (by simpa using hlenf) a hafilter
            blk p hblk hx
        have hpos : 0 < (queryProducts bmOf q html cap st.existingAsins).length :=
          List.length_pos_of_mem hpprod
        rw [pq_usable_insertOk bmOf fetch insertOk cap st q html hf hb hpos (hins q _)]
        refine mem_storage_fold_mono bmOf fetch insertOk cap rest _ a ?_
        show a ∈ (st.storage ++ queryProducts bmOf q html cap st.existingAsins).map
          (fun p => p.amazonAsin)
        rw [List.map_append]
        refine List.mem_append.mpr (Or.inr ?_)
        exact List.mem_map.mpr ⟨p, hpprod, extractItem_asin q a blk (bmOf blk) p hx⟩
    · refine ih (processQuery bmOf fetch insertOk cap st q0) ?_
        (J_preserved bmOf fetch insertOk cap st q0 hJ) q hqrest html hf hb a ha blk p hblk hx
      intro q' hq' html' hf'
      exact hcap q' (List.mem_cons_of_mem _ hq') html' hf'

/-- If every identifier that extracts a record on any selected query's page
is already known at the start, the query loop saves nothing. -/
theorem fold_no_new_saves (bmOf : String → BlockMatches)
    (fetch : SearchQuery → FetchOutcome) (insertOk : SearchQuery → List Product → Bool)
    (cap : Nat) : ∀ (qs : List SearchQuery) (st : RunState),
    (∀ q ∈ qs, ∀ html, fetch q = .got true html → blockedBody html = false →
      ∀ a ∈ scanAsins html, ∀ blk p, blockFor html a = some blk →
        extractItem q a blk (bmOf blk) = some p → a ∈ st.existingAsins) →
    (qs.foldl (processQuery bmOf fetch insertOk cap) st).totalSaved = st.totalSaved := by
  intro qs
  induction qs with
  | nil => intro st _; rfl
  | cons q rest ih =>
    intro st H
    rw [List.foldl_cons]
    rcases pq_cases bmOf fetch insertOk cap st q with ⟨he, _, hs⟩ |
      ⟨html, hf, hb, hpos, _, _, _, _⟩
    · have hrest := ih (processQuery bmOf fetch insertOk cap st q) ?_
      · rw [hrest, hs]
      · intro q' hq' html' hf' hb' a ha' blk p hblk hx
        rw [he]
        exact H q' (List.mem_cons_of_mem _ hq') html' hf' hb' a ha' blk p hblk hx
    · exfalso
      rcases List.exists_mem_of_ne_nil _ (List.length_pos.mp hpos) with ⟨p, hp⟩
      have hp' : p ∈ extractLoop bmOf q html cap
          ((scanAsins html).filter (fun x => !st.existingAsins.contains x)) [] := hp
      rcases extractLoop_mem bmOf q html cap _ _ p hp' with h0 | ⟨a, ha, blk, hblk, hx⟩
      · exact absurd h0 (List.not_mem_nil p)
      · have haScan : a ∈ scanAsins html := List.mem_of_mem_filter ha
        have hknown : a ∈ st.existingAsins :=
          H q (List.mem_cons_self q rest) html hf hb a haScan blk p hblk hx
        have hfilter := List.of_mem_filter ha
        rw [(contains_iff_mem _ _).mpr hknown] at hfilter
        simp at hfilter

/-- C8 (amended): with always-successful batch inserts, every selected
page's identifier count within the per-query cap, and known sets faithfully
rebuilt — the first run's from the prior catalog, the second run's from the
first run's final catalog — a second run over the same queries and pages
saves zero new items. -/
theorem claim_C8_amended (bmOf : String → BlockMatches) (fetch : SearchQuery → FetchOutcome)
    (insertOk : SearchQuery → List Product → Bool) (cap : Nat)
    (existing1 existing2 : List String) (storage0 : List Product) (qs : List SearchQuery)
    (hins : ∀ q ps, insertOk q ps = true)
    (hcap : ∀ q ∈ qs, ∀ html, fetch q = FetchOutcome.got true html →
      (scanAsins html).length ≤ cap)
    (hk1 : ∀ b, b ∈ existing1 ↔ b ∈ storage0.map (fun p => p.amazonAsin))
    (hk2 : ∀ b, b ∈ existing2 ↔
      b ∈ (runScrapeOn bmOf fetch insertOk cap existing1 storage0 qs).finalState.storage.map
        (fun p => p.amazonAsin)) :
    (runScrapeOn bmOf fetch insertOk cap existing2
      (runScrapeOn bmOf fetch insertOk cap existing1 storage0 qs).finalState.storage
      qs).totalSaved = 0 := by
  rw [runScrapeOn_totalSaved]
  have hsaved := fold_no_new_saves bmOf fetch insertOk cap qs
    (initState existing2
      (runScrapeOn bmOf fetch insertOk cap existing1 storage0 qs).finalState.storage) ?_
  · rw [hsaved]
    rfl
  · intro q hq html hf hb a ha blk p hblk hx
    show a ∈ existing2
    rw [hk2 a, runScrapeOn_finalState]
    exact fold_saves_cover bmOf fetch insertOk cap hins qs (initState existing1 storage0)
      hcap (fun b => hk1 b) q hq html hf hb a ha blk p hblk hx

/-- Witness for the amended C8: one query over a one-item page, cap 30 —
the second run, whose known set is rebuilt from the first run's catalog,
saves nothing. -/
theorem claim_C8_witness :
    (runScrapeOn bmOracle fetchA insertAlways 30 ["AAAAAAAAA1"]
      (runScrapeOn bmOracle fetchA insertAlways 30 [] []
        [⟨"3D+pen", "3d_pen", "3d_pen", "3D Pen"⟩]).finalState.storage
      [⟨"3D+pen", "3d_pen", "3d_pen", "3D Pen"⟩]).totalSaved = 0 := by
  have hstor : (runScrapeOn bmOracle fetchA insertAlways 30 [] []
      [⟨"3D+pen", "3d_pen", "3d_pen", "3D Pen"⟩]).finalState
      = { totalFound := 1, totalSaved := 1, totalSkipped := 0, errorsCount := 0,
          existingAsins := ["AAAAAAAAA1"],
          storage := [prodA ⟨"3D+pen", "3d_pen", "3d_pen", "3D Pen"⟩] } := by
    rw [runScrapeOn_finalState, List.foldl_cons, pq_A_empty_ok _ _ rfl, List.foldl_nil]
    rfl
  refine claim_C8_amended bmOracle fetchA insertAlways 30 [] ["AAAAAAAAA1"] []
    [⟨"3D+pen", "3d_pen", "3d_pen", "3D Pen"⟩] (fun _ _ => rfl) ?_ (by simp) ?_
  · intro q hq html hf
    have hf' : pageA = html := by
      simpa [fetchA] using hf
    rw [← hf', scanAsins_pageA]
    simp
  · intro b
    rw [hstor]
    simp [prodA]

/-- Counterexample to C8 as stated: with the per-query cap at 1 and an
unchanged two-item page, the first run saves only the first item, so the
second run — its known set rebuilt exactly from the first run's catalog —
still saves one new item rather than zero. -/
theorem claim_C8_counterexample :
    (runLightScrape bmOracle fetchAB insertAlways (.ok []) [] (some ["3d_pen"])
        1).finalState.storage
      = [prodA ⟨"3D+pen", "3d_pen", "3d_pen", "3D Pen"⟩] ∧
    loadExisting (.ok [["AAAAAAAAA1"]]) = ["AAAAAAAAA1"] ∧
    (prodA ⟨"3D+pen", "3d_pen", "3d_pen", "3D Pen"⟩).amazonAsin = "AAAAAAAAA1" ∧
    (runLightScrape bmOracle fetchAB insertAlways (.ok [["AAAAAAAAA1"]])
        [prodA ⟨"3D+pen", "3d_pen", "3d_pen", "3D Pen"⟩] (some ["3d_pen"]) 1).totalSaved
      = 1 := by
  refine ⟨?_, by decide, by decide, ?_⟩
  · rw [runC8_first]
  · rw [runC8_second]
